import Mathlib

/-!
Formal model of the QuizCam application: the image-to-quiz generation
pipeline (`src/ai/flows/generate-quiz-from-image.ts`), the client quiz
session state machine (`src/app/page.tsx`), the result handoff to the
results page, and the performance-analysis flow.  Pure TypeScript
functions are embedded as Lean functions; the generative model and its
prompt are treated as an oracle parameter; tool invocations are counted
explicitly so that claims about which tools run can be stated.
-/

/-- Decimal digits of a natural number, most significant first (never empty). -/
def natDigits (n : Nat) : List Nat :=
  if _h : n < 10 then [n] else natDigits (n / 10) ++ [n % 10]
termination_by n
decreasing_by exact Nat.div_lt_self (by omega) (by decide)

/-- Character for a single decimal digit. -/
def digitToChar (d : Nat) : Char := Char.ofNat (48 + d)

/-- Decimal rendering of a natural number, as JavaScript `Number.prototype.toString`
produces for a nonnegative integer. -/
def natToDec (n : Nat) : List Char := (natDigits n).map digitToChar

/-- Decimal rendering of an integer, as `JSON.stringify` / `toString` produce. -/
def intDec (n : Int) : List Char :=
  if n < 0 then '-' :: natToDec n.natAbs else natToDec n.natAbs

theorem natDigits_ne_nil (n : Nat) : natDigits n ≠ [] := by
  unfold natDigits
  split
  · simp
  · simp

theorem natDigits_lt (n : Nat) : ∀ d ∈ natDigits n, d < 10 := by
  induction n using Nat.strong_induction_on with
  | _ n ih =>
    unfold natDigits
    split
    · next h => intro d hd; simp at hd; omega
    · next h =>
      intro d hd
      simp only [List.mem_append, List.mem_singleton] at hd
      rcases hd with hd | hd
      · exact ih (n / 10) (Nat.div_lt_self (by omega) (by decide)) d hd
      · subst hd; exact Nat.mod_lt _ (by omega)

theorem natDigits_val (n : Nat) :
    (natDigits n).foldl (fun a d => a * 10 + d) 0 = n := by
  induction n using Nat.strong_induction_on with
  | _ n ih =>
    unfold natDigits
    split
    · next h => simp
    · next h =>
      rw [List.foldl_append]
      rw [ih (n / 10) (Nat.div_lt_self (by omega) (by decide))]
      show n / 10 * 10 + n % 10 = n
      omega

namespace GenFlow

/-- Difficulty enum shared by the zod input schemas. -/
inductive Difficulty where
  | easy
  | medium
  | hard
deriving DecidableEq

/-- Shape of one generated question in `GenerateQuizFromImageOutputSchema`:
`question: string`, `options: string[]` (length unconstrained by the schema),
`correctAnswerIndex: number.int()` (range unconstrained by the schema). -/
structure GenQuestion where
  question : String
  options : List String
  correctAnswerIndex : Int
deriving DecidableEq

/-- Output of `generateQuizPrompt` (the structured-generation call). -/
structure PromptOutput where
  questions : List GenQuestion
deriving DecidableEq

/-- Input of the flow, after zod typing (`GenerateQuizFromImageInputSchema`). -/
structure FlowInput where
  photoDataUri : String
  numQuestions : Int
  difficulty : Difficulty
deriving DecidableEq

/-- Output of the flow: the questions plus the `language` field. -/
structure FlowOutput where
  questions : List GenQuestion
  language : String
deriving DecidableEq

/-- Runtime content of the zod input validation: `numQuestions` is an integer
in `[1, 10]` (`.int().min(1).max(10)`). -/
def inputValid (input : FlowInput) : Bool :=
  1 ≤ input.numQuestions && input.numQuestions ≤ 10

/-- The `detectLanguage` tool body (lines 61-66 of the flow file): the
placeholder implementation always returns the string `"en"`. -/
def detectLanguageTool (_photoDataUri : String) : String := "en"

/-- The `translateText` tool body (lines 78-83 of the flow file): the
placeholder implementation returns its input text unchanged. -/
def translateTextTool (text : String) (_targetLanguage : String) : String := text

/-- One iteration of the translation map in the flow body: translate the
question text and each of its options.  The second component counts the
`translateText` tool invocations this performs (one for the question text and
one per option). -/
def translateQuestionPass (lang : String) (q : GenQuestion) : GenQuestion × Nat :=
  ({ q with
      question := translateTextTool q.question lang
      options := q.options.map (fun option => translateTextTool option lang) },
    1 + q.options.length)

/-- The `Promise.all(output.questions.map(...))` translation pass, with the
total count of `translateText` invocations. -/
def translateAll (lang : String) (qs : List GenQuestion) : List GenQuestion × Nat :=
  (qs.map (fun q => (translateQuestionPass lang q).1),
   (qs.map (fun q => (translateQuestionPass lang q).2)).sum)

/-- Lines 155-200 of `generateQuizFromImageFlow`, after the detect and prompt
calls: re-translate the questions when the detected language is neither
`"en"` nor `"mr"`, then (separately) re-translate them when it is `"mr"`,
and attach the detected language.  The second component is the number of
`translateText` tool invocations performed. -/
def flowBody (detectedLanguage : String) (output : PromptOutput) : FlowOutput × Nat :=
  let pass1 :=
    if detectedLanguage ≠ "en" ∧ detectedLanguage ≠ "mr" then
      translateAll detectedLanguage output.questions
    else (output.questions, 0)
  let pass2 :=
    if detectedLanguage = "mr" then
      translateAll detectedLanguage pass1.1
    else (pass1.1, 0)
  ({ questions := pass2.1, language := detectedLanguage }, pass1.2 + pass2.2)

/-- The `generateQuizFromImageFlow` function.  The structured generator
(`generateQuizPrompt`) is an oracle parameter receiving the flow input and
the language passed to it; `none` models the zod `ValidationError` on an
out-of-range input.  The result carries the flow output together with the
number of `translateText` tool invocations performed. -/
def generateQuizFromImageFlow (promptOracle : FlowInput → String → PromptOutput)
    (input : FlowInput) : Option (FlowOutput × Nat) :=
  if inputValid input then
    let detectedLanguage := detectLanguageTool input.photoDataUri
    some (flowBody detectedLanguage (promptOracle input detectedLanguage))
  else none

end GenFlow

/-- Left brace character (written via its code point). -/
def lbrace : Char := Char.ofNat 123

/-- Right brace character (written via its code point). -/
def rbrace : Char := Char.ofNat 125

/-- Lower-case hexadecimal digit character. -/
def hexChar (d : Nat) : Char :=
  if d < 10 then Char.ofNat (48 + d) else Char.ofNat (87 + d)

/-- Escaping performed by `JSON.stringify` on a single character of a string:
quote and backslash are escaped, the named control escapes are used where
they exist, remaining control characters use a `\u00XX` escape, and every
other character is emitted literally. -/
def escapeChar (c : Char) : List Char :=
  if c = '"' then ['\\', '"']
  else if c = '\\' then ['\\', '\\']
  else if c = '\n' then ['\\', 'n']
  else if c = '\r' then ['\\', 'r']
  else if c = '\t' then ['\\', 't']
  else if c = Char.ofNat 8 then ['\\', 'b']
  else if c = Char.ofNat 12 then ['\\', 'f']
  else if c.toNat < 32 then
    '\\' :: 'u' :: '0' :: '0' :: hexChar (c.toNat / 16) :: [hexChar (c.toNat % 16)]
  else [c]

/-- Escape every character of a string body. -/
def escapeList : List Char → List Char
  | [] => []
  | c :: cs => escapeChar c ++ escapeList cs

/-- Escaped body of a JSON string literal. -/
def escapeString (s : String) : List Char := escapeList s.data

/-- JSON values as produced by `JSON.parse` (numbers restricted to the
integers, which is all the application ever serializes). -/
inductive Json where
  | null
  | bool (value : Bool)
  | num (value : Int)
  | str (value : String)
  | arr (elems : List Json)
  | obj (fields : List (String × Json))

/-- Comma-join pre-rendered fragments. -/
def joinComma : List (List Char) → List Char
  | [] => []
  | [x] => x
  | x :: y :: ys => x ++ ',' :: joinComma (y :: ys)

mutual

/-- Rendering performed by `JSON.stringify` (no insignificant whitespace). -/
def serialize : Json → List Char
  | .null => ['n'] ++ ['u', 'l', 'l']
  | .bool true => ['t'] ++ ['r', 'u', 'e']
  | .bool false => ['f'] ++ ['a', 'l', 's', 'e']
  | .num n => intDec n
  | .str s => '"' :: escapeString s ++ ['"']
  | .arr es => '[' :: joinComma (serializeList es) ++ [']']
  | .obj fs => lbrace :: joinComma (serializeFields fs) ++ [rbrace]

/-- Rendered fragments of an array's elements. -/
def serializeList : List Json → List (List Char)
  | [] => []
  | x :: xs => serialize x :: serializeList xs

/-- Rendered fragments of an object's fields. -/
def serializeFields : List (String × Json) → List (List Char)
  | [] => []
  | (k, v) :: fs => ('"' :: escapeString k ++ '"' :: ':' :: serialize v) :: serializeFields fs

end

/-- `JSON.stringify` as a string-valued function. -/
def jsonStringify (j : Json) : String := ⟨serialize j⟩

namespace Session

/-- The `Question` interface of `page.tsx` (lines 23-29): a generated question
plus the per-session `userAnswer` / `isCorrect` fields (`null` = `none`). -/
structure Question where
  question : String
  options : List String
  correctAnswerIndex : Int
  userAnswer : Option Int
  isCorrect : Option Bool
deriving DecidableEq

/-- JSON value `JSON.stringify` receives for one session question (field
insertion order follows the construction in `page.tsx`). -/
def questionToJson (q : Question) : Json :=
  .obj [("question", .str q.question),
        ("options", .arr (q.options.map Json.str)),
        ("correctAnswerIndex", .num q.correctAnswerIndex),
        ("userAnswer", match q.userAnswer with | some u => .num u | none => .null),
        ("isCorrect", match q.isCorrect with | some b => .bool b | none => .null)]

/-- JSON value for the whole quiz array. -/
def quizToJson (quiz : List Question) : Json := .arr (quiz.map questionToJson)

/-- The three query parameters `handleFinishQuiz` appends to the results URL:
`JSON.stringify(quiz)`, `score.toString()`, and the quiz language.  The URL
query-string layer (`URLSearchParams` / `useSearchParams`) transports each
parameter string losslessly, so the handoff is modelled at the level of the
three parameter strings. -/
def publishParams (quiz : List Question) (score : Nat) (language : String) :
    String × String × String :=
  (jsonStringify (quizToJson quiz), ⟨natToDec score⟩, language)

/-- `calculateScore` (page.tsx lines 559-567): a `forEach` over the quiz that
increments the score when `userAnswer === correctAnswerIndex`; a `null`
(unanswered) `userAnswer` never satisfies the strict equality. -/
def calculateScore (quiz : List Question) : Nat :=
  quiz.foldl
    (fun score q => if q.userAnswer = some q.correctAnswerIndex then score + 1 else score) 0

/-- The bindings of the render in which `handleAnswerSelection` ran, as seen
by the `setTimeout` callback it schedules: the callback invokes that render's
`moveToNextQuestion` and (through it) `handleFinishQuiz`, whose closures hold
that render's `quiz` — still the pre-answer array, since the `setQuiz` issued
by the same click has not produced a new render — together with its
`activeQuestionIndex` and `quizLanguage`. -/
structure TimerClosure where
  quiz : List Question
  activeQuestionIndex : Nat
  quizLanguage : String
deriving DecidableEq

/-- Component state of the `App` component of `page.tsx` that the session
machine reads or writes, plus the queue of scheduled-but-unfired `setTimeout`
auto-advance callbacks (each carrying its scheduling render's closure), a
`mounted` flag cleared when `router.push` navigates away and unmounts the
component (state setters on an unmounted instance are no-ops), and the record
of `router.push` navigations to the results page. -/
structure SessionState where
  quiz : List Question
  activeQuestionIndex : Nat
  quizStarted : Bool
  isSubmitting : Bool
  quizLanguage : String
  pendingCallbacks : List TimerClosure
  mounted : Bool
  published : List (String × String × String)
deriving DecidableEq

/-- Number of scheduled-but-unfired auto-advance callbacks. -/
def SessionState.pendingTimers (s : SessionState) : Nat := s.pendingCallbacks.length

/-- Initial component state (`useState` initializers, freshly mounted). -/
def initState : SessionState :=
  { quiz := [], activeQuestionIndex := 0, quizStarted := false,
    isSubmitting := false, quizLanguage := "", pendingCallbacks := [],
    mounted := true, published := [] }

/-- `handleAnswerSelection` (page.tsx lines 513-536): blocked while
`isSubmitting`; otherwise records `userAnswer` and the frozen `isCorrect` on
the active question, sets `isSubmitting`, and schedules one `setTimeout`
auto-advance whose callback captures the current render's closure.  Returns
`none` where the code would throw a `TypeError` (reading
`correctAnswerIndex` of `undefined` when the active index is out of
range). -/
def handleAnswerSelection (optionIndex : Int) (s : SessionState) : Option SessionState :=
  if s.isSubmitting then some s
  else
    match s.quiz[s.activeQuestionIndex]? with
    | none => none
    | some q =>
      some { s with
        quiz := s.quiz.set s.activeQuestionIndex
          { q with userAnswer := some optionIndex,
                   isCorrect := some (decide (optionIndex = q.correctAnswerIndex)) },
        isSubmitting := true,
        pendingCallbacks := s.pendingCallbacks ++
          [{ quiz := s.quiz, activeQuestionIndex := s.activeQuestionIndex,
             quizLanguage := s.quizLanguage }] }

/-- `handleFinishQuiz` (page.tsx lines 546-557) invoked from a live render:
compute the score, push the results URL with the serialized quiz, score and
language, and leave the quiz screen; the navigation unmounts the component.
No timer is touched — no timeout handle is stored and `clearTimeout` is
never called. -/
def handleFinishQuiz (s : SessionState) : SessionState :=
  { s with
    published := s.published ++ [publishParams s.quiz (calculateScore s.quiz) s.quizLanguage],
    quizStarted := false,
    mounted := false }

/-- `moveToNextQuestion` (page.tsx lines 538-544) as run by the auto-advance
callback: the branch condition reads the scheduling render's
`activeQuestionIndex` and `quiz` (JavaScript number arithmetic); the advance
is the functional update `setActiveQuestionIndex(prev => prev + 1)`, applied
to the live state and a no-op on an unmounted instance; the finish branch
runs the same render's `handleFinishQuiz` closure, which scores and
publishes the closure's quiz — `router.push` belongs to the page, not the
component, so it still navigates when the instance is already unmounted,
while its `setQuizStarted(false)` only lands on a mounted instance. -/
def moveToNextQuestion (c : TimerClosure) (s : SessionState) : SessionState :=
  if (c.activeQuestionIndex : Int) < (c.quiz.length : Int) - 1 then
    if s.mounted then { s with activeQuestionIndex := s.activeQuestionIndex + 1 } else s
  else
    { s with
      published := s.published ++
        [publishParams c.quiz (calculateScore c.quiz) c.quizLanguage],
      quizStarted := if s.mounted then false else s.quizStarted,
      mounted := false }

/-- Firing of the oldest scheduled `setTimeout` callback
(`setIsSubmitting(false); moveToNextQuestion()`): the callback runs once and
is consumed even when the component instance has been unmounted, but its
`setIsSubmitting(false)` only lands on a mounted instance; no-op when no
callback is pending. -/
def timerFire (s : SessionState) : SessionState :=
  match s.pendingCallbacks with
  | [] => s
  | c :: rest =>
    moveToNextQuestion c
      { s with
        isSubmitting := if s.mounted then false else s.isSubmitting,
        pendingCallbacks := rest }

/-- Guard under which an option click reaches `handleAnswerSelection`: the
quiz card is rendered (`quizStarted`), the active question exists, and its
answer buttons are not disabled (`disabled={currentQuestion.userAnswer !== null}`). -/
def answerClickEnabled (s : SessionState) : Bool :=
  s.quizStarted &&
    match s.quiz[s.activeQuestionIndex]? with
    | some q => q.userAnswer.isNone
    | none => false

/-- An answer click as dispatched by the rendered UI. -/
def answerEvent (optionIndex : Int) (s : SessionState) : SessionState :=
  if answerClickEnabled s then (handleAnswerSelection optionIndex s).getD s else s

/-- Click on the Finish Quiz button, which is rendered only during an active
quiz. -/
def finishClick (s : SessionState) : SessionState :=
  if s.quizStarted then handleFinishQuiz s else s

/-- Successful completion of `generateQuiz` (page.tsx lines 483-501):
initialize `userAnswer`/`isCorrect` to `null` on every generated question,
reset the index, record the language, and start the quiz. -/
def startQuiz (generated : GenFlow.FlowOutput) (s : SessionState) : SessionState :=
  { s with
    quiz := generated.questions.map (fun q =>
      { question := q.question, options := q.options,
        correctAnswerIndex := q.correctAnswerIndex,
        userAnswer := none, isCorrect := none }),
    activeQuestionIndex := 0,
    quizLanguage := generated.language,
    quizStarted := true }

/-- The Generate Quiz button is only rendered by a live (mounted) component
instance on the configuration screen (`!quizStarted`); once `router.push`
has unmounted the instance it renders nothing, so no further events reach
it — a later quiz lives in a fresh instance with fresh state. -/
def startEvent (generated : GenFlow.FlowOutput) (s : SessionState) : SessionState :=
  if s.quizStarted || !s.mounted then s else startQuiz generated s

/-- One externally observable event of the session machine. -/
inductive Step : SessionState → SessionState → Prop where
  | answer (a : Int) (s : SessionState) : Step s (answerEvent a s)
  | fire (s : SessionState) : Step s (timerFire s)
  | finish (s : SessionState) : Step s (finishClick s)
  | start (g : GenFlow.FlowOutput) (s : SessionState) : Step s (startEvent g s)

/-- States reachable from the initial component state by UI events and timer
firings. -/
inductive Reachable : SessionState → Prop where
  | init : Reachable initState
  | step {s s' : SessionState} : Reachable s → Step s s' → Reachable s'

end Session

namespace Session

/-- Machine invariant: on a live (mounted) instance `isSubmitting` tracks
exactly one pending auto-advance callback, an active quiz only runs on a
live instance, and every question's cached `isCorrect` agrees with its
recorded answer. -/
def Inv (s : SessionState) : Prop :=
  (s.mounted = true → s.pendingTimers = if s.isSubmitting then 1 else 0) ∧
  (s.quizStarted = true → s.mounted = true) ∧
  (∀ q ∈ s.quiz, q.isCorrect = q.userAnswer.map (fun u => decide (u = q.correctAnswerIndex)))

theorem inv_init : Inv initState := by
  refine ⟨fun _ => rfl, fun _ => rfl, ?_⟩
  intro q hq; simp [initState] at hq

theorem inv_answerEvent (a : Int) (s : SessionState) (h : Inv s) : Inv (answerEvent a s) := by
  unfold answerEvent
  split
  · unfold handleAnswerSelection
    split
    · exact h
    · next hsub =>
      cases hq : s.quiz[s.activeQuestionIndex]? with
      | none => simp [hq]; exact h
      | some q =>
        simp only [hq, Option.getD_some]
        refine ⟨?_, h.2.1, ?_⟩
        · intro hm
          have hsub' : s.isSubmitting = false := by
            rw [Bool.not_eq_true] at hsub
            exact hsub
          have hp := h.1 hm
          rw [hsub'] at hp
          show (s.pendingCallbacks ++ [_]).length = if true then 1 else 0
          rw [List.length_append]
          have hlen : s.pendingCallbacks.length = 0 := hp
          simp [hlen]
        · intro p hp
          rcases List.mem_or_eq_of_mem_set hp with hp' | rfl
          · exact h.2.2 p hp'
          · rfl
  · exact h

theorem inv_handleFinishQuiz (s : SessionState) (h : Inv s) : Inv (handleFinishQuiz s) := by
  unfold handleFinishQuiz
  refine ⟨?_, ?_, h.2.2⟩
  · intro hm; exact absurd hm (by simp)
  · intro hq; exact absurd hq (by simp)

theorem inv_finishClick (s : SessionState) (h : Inv s) : Inv (finishClick s) := by
  unfold finishClick
  split
  · exact inv_handleFinishQuiz s h
  · exact h

theorem inv_timerFire (s : SessionState) (h : Inv s) : Inv (timerFire s) := by
  unfold timerFire
  cases hpc : s.pendingCallbacks with
  | nil => exact h
  | cons c rest =>
    dsimp only
    by_cases hm : s.mounted = true
    · have hp := h.1 hm
      unfold SessionState.pendingTimers at hp
      rw [hpc] at hp
      have hsub : s.isSubmitting = true := by
        by_contra hc
        rw [Bool.not_eq_true] at hc
        rw [hc] at hp
        simp at hp
      rw [hsub] at hp
      have hrest : rest = [] := by
        have h1 : (c :: rest).length = 1 := by simpa using hp
        simp at h1
        exact h1
      subst hrest
      unfold moveToNextQuestion
      rw [hm]
      dsimp only
      simp only [eq_self_iff_true, if_true]
      split
      · exact ⟨fun _ => rfl, fun _ => rfl, h.2.2⟩
      · refine ⟨?_, ?_, h.2.2⟩
        · intro hmm; exact absurd hmm (by simp)
        · intro hq; exact absurd hq (by simp)
    · rw [Bool.not_eq_true] at hm
      unfold moveToNextQuestion
      rw [hm]
      dsimp only
      simp only [Bool.false_eq_true, if_false]
      split
      · refine ⟨?_, ?_, h.2.2⟩
        · intro hmm; exact absurd hmm (by simp [hm])
        · intro hq; exact absurd (h.2.1 hq) (by simp [hm])
      · refine ⟨?_, ?_, h.2.2⟩
        · intro hmm; exact absurd hmm (by simp)
        · intro hq; exact absurd (h.2.1 hq) (by simp [hm])

theorem inv_startEvent (g : GenFlow.FlowOutput) (s : SessionState) (h : Inv s) :
    Inv (startEvent g s) := by
  unfold startEvent
  split
  · exact h
  · next hg =>
    have hm : s.mounted = true := by
      by_contra hc
      rw [Bool.not_eq_true] at hc
      simp only [Bool.or_eq_true, Bool.not_eq_true'] at hg
      exact hg (Or.inr hc)
    unfold startQuiz
    refine ⟨fun _ => h.1 hm, fun _ => hm, ?_⟩
    intro q hq
    simp only [List.mem_map] at hq
    obtain ⟨p, _, rfl⟩ := hq
    rfl

theorem reachable_inv (s : SessionState) (hr : Reachable s) : Inv s := by
  induction hr with
  | init => exact inv_init
  | step _ hstep ih =>
    cases hstep with
    | answer a => exact inv_answerEvent a _ ih
    | fire => exact inv_timerFire _ ih
    | finish => exact inv_finishClick _ ih
    | start g => exact inv_startEvent g _ ih

end Session

namespace Session

theorem lt_of_getElem?_eq_some {α : Type _} {xs : List α} {n : Nat} {x : α}
    (hx : xs[n]? = some x) : n < xs.length := by
  rcases Nat.lt_or_ge n xs.length with hlt | hge
  · exact hlt
  · rw [List.getElem?_eq_none hge] at hx
    exact Option.noConfusion hx

theorem answerEvent_of_not_enabled {s : SessionState} (h : answerClickEnabled s = false)
    (b : Int) : answerEvent b s = s := by
  unfold answerEvent
  rw [h]
  simp

theorem answerEvent_of_submitting {s : SessionState} (h : s.isSubmitting = true) (b : Int) :
    answerEvent b s = s := by
  unfold answerEvent handleAnswerSelection
  rw [h]
  split <;> simp

theorem enabled_quizStarted {s : SessionState} (h : answerClickEnabled s = true) :
    s.quizStarted = true := by
  unfold answerClickEnabled at h
  simp only [Bool.and_eq_true] at h
  exact h.1

theorem enabled_activeQuestion {s : SessionState} (h : answerClickEnabled s = true) :
    ∃ q, s.quiz[s.activeQuestionIndex]? = some q ∧ q.userAnswer = none := by
  unfold answerClickEnabled at h
  simp only [Bool.and_eq_true] at h
  cases hq : s.quiz[s.activeQuestionIndex]? with
  | none =>
    rw [hq] at h
    simp at h
  | some q =>
    rw [hq] at h
    exact ⟨q, rfl, by simpa [Option.isNone_iff_eq_none] using h.2⟩

theorem answerEvent_records {s : SessionState} {q : Question}
    (hen : answerClickEnabled s = true) (hsub : s.isSubmitting = false)
    (hq : s.quiz[s.activeQuestionIndex]? = some q) (a : Int) :
    answerEvent a s =
      { s with
        quiz := s.quiz.set s.activeQuestionIndex
          { q with userAnswer := some a,
                   isCorrect := some (decide (a = q.correctAnswerIndex)) },
        isSubmitting := true,
        pendingCallbacks := s.pendingCallbacks ++
          [{ quiz := s.quiz, activeQuestionIndex := s.activeQuestionIndex,
             quizLanguage := s.quizLanguage }] } := by
  unfold answerEvent handleAnswerSelection
  rw [hen, hsub, hq]
  simp

theorem answerClickEnabled_recorded {s : SessionState} {q : Question}
    (hq : s.quiz[s.activeQuestionIndex]? = some q) (hans : q.userAnswer.isSome = true) :
    answerClickEnabled s = false := by
  unfold answerClickEnabled
  rw [hq]
  cases hu : q.userAnswer with
  | none => rw [hu] at hans; simp at hans
  | some u => simp [hu]

theorem foldl_answerEvent_const {t : SessionState} (h : ∀ b, answerEvent b t = t)
    (bs : List Int) : bs.foldl (fun st b => answerEvent b st) t = t := by
  induction bs with
  | nil => rfl
  | cons b bs ih => simp only [List.foldl_cons, h b, ih]

theorem timerFire_of_no_timer {t : SessionState} (h : t.pendingTimers = 0) :
    timerFire t = t := by
  have hpc : t.pendingCallbacks = [] := List.length_eq_zero.mp h
  unfold timerFire
  rw [hpc]

end Session

namespace Session

theorem calculateScore_foldl (quiz : List Question) (n : Nat) :
    quiz.foldl
        (fun score q => if q.userAnswer = some q.correctAnswerIndex then score + 1 else score) n
      = n + quiz.countP (fun q => q.userAnswer == some q.correctAnswerIndex) := by
  induction quiz generalizing n with
  | nil => simp
  | cons q qs ih =>
    simp only [List.foldl_cons, List.countP_cons, ih]
    by_cases h : q.userAnswer = some q.correctAnswerIndex
    · simp only [h, if_pos rfl, beq_self_eq_true, if_true]
      omega
    · rw [if_neg h, if_neg (by simpa using h)]
      omega

theorem calculateScore_countP (quiz : List Question) :
    calculateScore quiz = quiz.countP (fun q => q.userAnswer == some q.correctAnswerIndex) := by
  unfold calculateScore
  rw [calculateScore_foldl]
  omega

theorem countP_user_eq_countP_isCorrect (quiz : List Question)
    (h : ∀ q ∈ quiz, q.isCorrect = q.userAnswer.map (fun u => decide (u = q.correctAnswerIndex))) :
    quiz.countP (fun q => q.userAnswer == some q.correctAnswerIndex)
      = quiz.countP (fun q => q.isCorrect == some true) := by
  apply List.countP_congr
  intro q hq
  rw [h q hq]
  cases hu : q.userAnswer with
  | none => simp
  | some u => by_cases hc : u = q.correctAnswerIndex <;> simp [hc]

/-- Claim C2: at every reachable point of a session, `calculateScore` equals
the number of questions whose recorded `userAnswer` equals their
`correctAnswerIndex` (an unanswered `null` never counts), which in turn
equals the number of questions whose frozen `isCorrect` flag is `true`; the
score is recomputed on demand from the committed answers, not stored
incrementally. -/
theorem score_is_count_of_correct_answers (s : SessionState) (hr : Reachable s) :
    calculateScore s.quiz
        = s.quiz.countP (fun q => q.userAnswer == some q.correctAnswerIndex) ∧
    calculateScore s.quiz = s.quiz.countP (fun q => q.isCorrect == some true) := by
  have hinv := reachable_inv s hr
  refine ⟨calculateScore_countP s.quiz, ?_⟩
  rw [calculateScore_countP]
  exact countP_user_eq_countP_isCorrect s.quiz hinv.2.2

/-- Concrete one-question generator payload used by the concrete traces. -/
def demoPayload : GenFlow.FlowOutput :=
  { questions := [{ question := "Sample question",
                    options := ["red", "green", "blue", "gray"],
                    correctAnswerIndex := 2 }],
    language := "en" }

/-- Concrete three-question generator payload used by the concrete traces. -/
def demoPayload3 : GenFlow.FlowOutput :=
  { questions :=
      [{ question := "First", options := ["a", "b", "c", "d"], correctAnswerIndex := 0 },
       { question := "Second", options := ["e", "f", "g", "h"], correctAnswerIndex := 1 },
       { question := "Third", options := ["i", "j", "k", "l"], correctAnswerIndex := 2 }],
    language := "en" }

/-- Witness for C2 on a concrete reachable state: one question, answered
correctly, score 1. -/
theorem score_is_count_witness :
    calculateScore (answerEvent 2 (startEvent demoPayload initState)).quiz
        = (answerEvent 2 (startEvent demoPayload initState)).quiz.countP
            (fun q => q.isCorrect == some true) ∧
    calculateScore (answerEvent 2 (startEvent demoPayload initState)).quiz = 1 :=
  ⟨(score_is_count_of_correct_answers (answerEvent 2 (startEvent demoPayload initState))
      (Reachable.step (Reachable.step Reachable.init (Step.start demoPayload initState))
        (Step.answer 2 (startEvent demoPayload initState)))).2,
   by decide⟩

/-- Claim C4: an answer click is idempotent — a second answer event (with any
other option value) after a recorded answer leaves the machine state, and in
particular the first recorded `userAnswer` and `isCorrect`, unchanged; and an
answer attempt on an already-answered active question is a silent no-op. -/
theorem answer_first_final (s : SessionState) (a b : Int) (q : Question)
    (hq : s.quiz[s.activeQuestionIndex]? = some q) :
    answerEvent b (answerEvent a s) = answerEvent a s ∧
    (q.userAnswer.isSome = true → answerEvent b s = s) := by
  constructor
  · by_cases hen : answerClickEnabled s = true
    · by_cases hsub : s.isSubmitting = true
      · rw [answerEvent_of_submitting hsub a, answerEvent_of_submitting hsub b]
      · rw [Bool.not_eq_true] at hsub
        have hq' : (answerEvent a s).quiz[(answerEvent a s).activeQuestionIndex]? =
            some { q with userAnswer := some a,
                          isCorrect := some (decide (a = q.correctAnswerIndex)) } := by
          rw [answerEvent_records hen hsub hq a]
          simp [List.getElem?_set, lt_of_getElem?_eq_some hq]
        exact answerEvent_of_not_enabled (answerClickEnabled_recorded hq' rfl) b
    · rw [Bool.not_eq_true] at hen
      rw [answerEvent_of_not_enabled hen a, answerEvent_of_not_enabled hen b]
  · intro hans
    exact answerEvent_of_not_enabled (answerClickEnabled_recorded hq hans) b

/-- Witness for C4 at a concrete state: question already answered with 2, a
further attempt with 0 changes nothing. -/
theorem answer_first_final_witness :
    answerEvent 0 (answerEvent 3 (answerEvent 2 (startEvent demoPayload initState)))
        = answerEvent 3 (answerEvent 2 (startEvent demoPayload initState)) ∧
    answerEvent 0 (answerEvent 2 (startEvent demoPayload initState))
        = answerEvent 2 (startEvent demoPayload initState) := by
  have h := answer_first_final (answerEvent 2 (startEvent demoPayload initState)) 3 0
    { question := "Sample question", options := ["red", "green", "blue", "gray"],
      correctAnswerIndex := 2, userAnswer := some 2, isCorrect := some true }
    (by decide)
  exact ⟨h.1, h.2 (by decide)⟩

end Session

namespace Session

theorem timerFire_one {t : SessionState} {c : TimerClosure}
    (hpc : t.pendingCallbacks = [c]) :
    timerFire t = moveToNextQuestion c
      { t with isSubmitting := if t.mounted then false else t.isSubmitting,
               pendingCallbacks := [] } := by
  unfold timerFire
  rw [hpc]

theorem timerFire_advance {t : SessionState} {c : TimerClosure}
    (hpc : t.pendingCallbacks = [c]) (hm : t.mounted = true)
    (hlt : c.activeQuestionIndex + 1 < c.quiz.length) :
    timerFire t =
      { t with
        isSubmitting := false,
        pendingCallbacks := [],
        activeQuestionIndex := t.activeQuestionIndex + 1 } := by
  rw [timerFire_one hpc, hm]
  unfold moveToNextQuestion
  rw [if_pos (by omega : (c.activeQuestionIndex : Int) < (c.quiz.length : Int) - 1)]
  rfl

theorem timerFire_finish {t : SessionState} {c : TimerClosure}
    (hpc : t.pendingCallbacks = [c]) (hm : t.mounted = true)
    (hge : ¬ c.activeQuestionIndex + 1 < c.quiz.length) :
    timerFire t =
      { t with
        isSubmitting := false,
        pendingCallbacks := [],
        published := t.published ++
          [publishParams c.quiz (calculateScore c.quiz) c.quizLanguage],
        quizStarted := false,
        mounted := false } := by
  rw [timerFire_one hpc, hm]
  unfold moveToNextQuestion
  rw [if_neg (by omega : ¬ (c.activeQuestionIndex : Int) < (c.quiz.length : Int) - 1)]
  rfl

/-- Claim C5: when an answer is recorded on the active question `i`, exactly
one auto-advance timer becomes pending; answer events during the delay window
are all no-ops; and the single timer firing advances to question `i + 1` when
one exists and otherwise finishes the quiz, after which no timer is pending
and a further firing changes nothing. -/
theorem auto_advance_exactly_once (s : SessionState) (a : Int) (bs : List Int)
    (hr : Reachable s) (hen : answerClickEnabled s = true) (hsub : s.isSubmitting = false) :
    (answerEvent a s).pendingTimers = 1 ∧
    bs.foldl (fun st b => answerEvent b st) (answerEvent a s) = answerEvent a s ∧
    (answerEvent a s).activeQuestionIndex = s.activeQuestionIndex ∧
    (timerFire (answerEvent a s)).pendingTimers = 0 ∧
    timerFire (timerFire (answerEvent a s)) = timerFire (answerEvent a s) ∧
    (if s.activeQuestionIndex + 1 < s.quiz.length then
        (timerFire (answerEvent a s)).activeQuestionIndex = s.activeQuestionIndex + 1 ∧
        (timerFire (answerEvent a s)).quizStarted = true
      else (timerFire (answerEvent a s)).quizStarted = false) := by
  obtain ⟨q, hq, -⟩ := enabled_activeQuestion hen
  have hmnt : s.mounted = true := (reachable_inv s hr).2.1 (enabled_quizStarted hen)
  have hp0 : s.pendingTimers = 0 := by
    have h1 := (reachable_inv s hr).1 hmnt
    rwa [hsub] at h1
  have hpcnil : s.pendingCallbacks = [] := List.length_eq_zero.mp hp0
  have hrec := answerEvent_records hen hsub hq a
  have hpc1 : (answerEvent a s).pendingCallbacks =
      [{ quiz := s.quiz, activeQuestionIndex := s.activeQuestionIndex,
         quizLanguage := s.quizLanguage }] := by
    rw [hrec]
    show s.pendingCallbacks ++ [_] = [_]
    rw [hpcnil]
    rfl
  have htimers : (answerEvent a s).pendingTimers = 1 := by
    show (answerEvent a s).pendingCallbacks.length = 1
    rw [hpc1]
    rfl
  have hm' : (answerEvent a s).mounted = true := by
    rw [hrec]
    exact hmnt
  have hidem : ∀ b, answerEvent b (answerEvent a s) = answerEvent a s := by
    intro b
    exact (answer_first_final s a b q hq).1
  have hidx : (answerEvent a s).activeQuestionIndex = s.activeQuestionIndex := by rw [hrec]
  have hstarted : (answerEvent a s).quizStarted = true := by
    rw [hrec]
    show s.quizStarted = true
    exact enabled_quizStarted hen
  refine ⟨htimers, foldl_answerEvent_const hidem bs, hidx, ?_⟩
  by_cases hlt : s.activeQuestionIndex + 1 < s.quiz.length
  · have hadv := timerFire_advance hpc1 hm' hlt
    refine ⟨by rw [hadv]; rfl, ?_, ?_⟩
    · rw [hadv]
      exact timerFire_of_no_timer rfl
    · rw [if_pos hlt]
      constructor
      · rw [hadv]
        show (answerEvent a s).activeQuestionIndex + 1 = s.activeQuestionIndex + 1
        rw [hidx]
      · rw [hadv]
        show (answerEvent a s).quizStarted = true
        exact hstarted
  · have hfin := timerFire_finish hpc1 hm' hlt
    refine ⟨by rw [hfin]; rfl, ?_, ?_⟩
    · rw [hfin]
      exact timerFire_of_no_timer rfl
    · rw [if_neg hlt, hfin]

/-- Witness for C5 on a concrete reachable state: a three-question quiz with
question 0 just answered; the timer fires once and moves to question 1. -/
theorem auto_advance_exactly_once_witness :
    (answerEvent 1 (startEvent demoPayload3 initState)).pendingTimers = 1 ∧
    [0, 2, 3].foldl (fun st b => answerEvent b st)
        (answerEvent 1 (startEvent demoPayload3 initState))
      = answerEvent 1 (startEvent demoPayload3 initState) ∧
    (answerEvent 1 (startEvent demoPayload3 initState)).activeQuestionIndex = 0 ∧
    (timerFire (answerEvent 1 (startEvent demoPayload3 initState))).pendingTimers = 0 ∧
    timerFire (timerFire (answerEvent 1 (startEvent demoPayload3 initState)))
      = timerFire (answerEvent 1 (startEvent demoPayload3 initState)) ∧
    (timerFire (answerEvent 1 (startEvent demoPayload3 initState))).activeQuestionIndex = 1 := by
  have h := auto_advance_exactly_once (startEvent demoPayload3 initState) 1 [0, 2, 3]
    (Reachable.step Reachable.init (Step.start demoPayload3 initState))
    (by decide) (by decide)
  obtain ⟨h1, h2, h3, h4, h5, h6⟩ := h
  rw [if_pos (by decide)] at h6
  exact ⟨h1, h2, by decide, h4, h5, by decide⟩

/-- Claim C6 counterexample: clicking `Finish` during the delay window does
not cancel the pending auto-advance timer — the code stores no timeout
handle and never calls `clearTimeout` — so after the reset the scheduled
callback count is still 1 and the stale callback still runs (it consumes
itself: the state after the firing differs from the state before it); the
timer outlives the reset instead of being cancelled by it. -/
theorem reset_cancels_timer_counterexample :
    (answerEvent 2 (startEvent demoPayload3 initState)).pendingTimers = 1 ∧
    (finishClick (answerEvent 2 (startEvent demoPayload3 initState))).pendingTimers = 1 ∧
    timerFire (finishClick (answerEvent 2 (startEvent demoPayload3 initState)))
      ≠ finishClick (answerEvent 2 (startEvent demoPayload3 initState)) := by
  refine ⟨by decide, by decide, by decide⟩

/-- Claim C6 amended: no reset cancels a pending auto-advance timer —
`Finish` and `Start` (and the underlying `handleFinishQuiz`/`startQuiz`)
leave the scheduled-callback count unchanged, so a previously scheduled
callback still runs after a reset.  The stale firing is nevertheless inert
against later session state: the callback acts through its scheduling
render's closures, and since `Finish`'s navigation unmounts the component
instance, a callback firing on an unmounted instance leaves the quiz, the
question index and the started flag unchanged — it cannot advance or finish
a quiz established after the reset. -/
theorem resets_never_cancel_timer (s : SessionState) (g : GenFlow.FlowOutput) :
    (finishClick s).pendingTimers = s.pendingTimers ∧
    (handleFinishQuiz s).pendingTimers = s.pendingTimers ∧
    (startEvent g s).pendingTimers = s.pendingTimers ∧
    (startQuiz g s).pendingTimers = s.pendingTimers ∧
    (s.mounted = false →
      (timerFire s).quiz = s.quiz ∧
      (timerFire s).activeQuestionIndex = s.activeQuestionIndex ∧
      (timerFire s).quizStarted = s.quizStarted ∧
      (timerFire s).mounted = false) := by
  refine ⟨?_, rfl, ?_, rfl, ?_⟩
  · unfold finishClick
    split <;> rfl
  · unfold startEvent
    split <;> rfl
  · intro hm
    unfold timerFire
    cases hpc : s.pendingCallbacks with
    | nil => exact ⟨rfl, rfl, rfl, hm⟩
    | cons c rest =>
      dsimp only
      unfold moveToNextQuestion
      by_cases hg : (c.activeQuestionIndex : Int) < (c.quiz.length : Int) - 1
      · rw [if_pos hg, hm]
        dsimp only
        simp [Bool.false_eq_true]
      · rw [if_neg hg, hm]
        dsimp only
        simp [Bool.false_eq_true]

/-- Witness for the amended C6 theorem on the concrete post-`Finish` state
(answer recorded, `Finish` clicked during the window): the callback count is
unchanged by the reset and the subsequent stale firing leaves the question
index where the reset left it. -/
theorem resets_never_cancel_timer_witness :
    (finishClick (answerEvent 2 (startEvent demoPayload3 initState))).pendingTimers
      = (answerEvent 2 (startEvent demoPayload3 initState)).pendingTimers ∧
    (timerFire (finishClick (answerEvent 2 (startEvent demoPayload3 initState)))).activeQuestionIndex
      = (finishClick (answerEvent 2 (startEvent demoPayload3 initState))).activeQuestionIndex := by
  refine ⟨(resets_never_cancel_timer
      (answerEvent 2 (startEvent demoPayload3 initState)) demoPayload3).1, ?_⟩
  exact ((resets_never_cancel_timer
      (finishClick (answerEvent 2 (startEvent demoPayload3 initState)))
      demoPayload3).2.2.2.2 (by decide)).2.1

end Session

namespace GenFlow

theorem flow_eval (promptOracle : FlowInput → String → PromptOutput) (input : FlowInput)
    (h : inputValid input = true) :
    generateQuizFromImageFlow promptOracle input
      = some ({ questions := (promptOracle input "en").questions, language := "en" }, 0) := by
  unfold generateQuizFromImageFlow
  rw [if_pos h]
  rfl

/-- Constant generator oracle returning three malformed questions regardless
of the request, exhibiting the flow's lack of output-shape validation. -/
def badOracle : FlowInput → String → PromptOutput := fun _ _ =>
  { questions :=
      [{ question := "q1", options := ["a", "b", "c", "d", "e"], correctAnswerIndex := 7 },
       { question := "q2", options := [], correctAnswerIndex := -1 },
       { question := "q3", options := ["x"], correctAnswerIndex := 0 }] }

/-- Concrete valid five-question request. -/
def demoInput : FlowInput :=
  { photoDataUri := "data:image/png;base64,AAAA", numQuestions := 5, difficulty := .medium }

/-- Claim C1 counterexample: for the valid request `demoInput`
(`numQuestions = 5`) and a generator returning 3 questions, the flow
succeeds and returns those questions unchanged — 3 questions instead of 5,
an option list of length 5 (and ones of length 0 and 1), and
`correctAnswerIndex` values 7 and -1 outside `[0, 3]` — rather than failing
on the mismatched count. -/
theorem flow_shape_unvalidated_counterexample :
    inputValid demoInput = true ∧
    demoInput.numQuestions = 5 ∧
    (generateQuizFromImageFlow badOracle demoInput).map (fun r => r.1.questions.length)
      = some 3 ∧
    (generateQuizFromImageFlow badOracle demoInput).map
        (fun r => r.1.questions.map (fun q => q.options.length))
      = some [5, 0, 1] ∧
    (generateQuizFromImageFlow badOracle demoInput).map
        (fun r => r.1.questions.map (fun q => q.correctAnswerIndex))
      = some [7, -1, 0] :=
  ⟨rfl, rfl, rfl, rfl, rfl⟩

/-- Claim C1 amended: the flow validates only the request (`questionCount`
in `[1, 10]`); the output schema constrains types, not shape, so on every
valid request the flow succeeds and returns exactly the generator's
questions, unchanged — whatever their count, option-list lengths, or
`correctAnswerIndex` values — with language `"en"` attached.  It neither
fails, truncates, nor pads on a mismatched count. -/
theorem flow_returns_generator_questions_unchanged
    (promptOracle : FlowInput → String → PromptOutput) (input : FlowInput)
    (h : inputValid input = true) :
    generateQuizFromImageFlow promptOracle input
      = some ({ questions := (promptOracle input "en").questions, language := "en" }, 0) :=
  flow_eval promptOracle input h

/-- Witness for the amended C1 theorem at the concrete request and oracle. -/
theorem flow_returns_generator_questions_unchanged_witness :
    inputValid demoInput = true ∧
    generateQuizFromImageFlow badOracle demoInput
      = some ({ questions := (badOracle demoInput "en").questions, language := "en" }, 0) :=
  ⟨rfl, flow_returns_generator_questions_unchanged badOracle demoInput rfl⟩

theorem translateAll_count_eq_zero (lang : String) (qs : List GenQuestion) :
    (translateAll lang qs).2 = 0 ↔ qs = [] := by
  cases qs with
  | nil => simp [translateAll]
  | cons q qs =>
    simp only [translateAll, translateQuestionPass, List.map_cons, List.sum_cons]
    constructor
    · intro h
      omega
    · intro h
      exact absurd h (List.cons_ne_nil q qs)

/-- Claim C3 counterexample: for detected language `"mr"` — one of the two
privileged native codes, for which the claim says the generator output is
returned without invoking Translate — the flow body nevertheless invokes the
`translateText` tool 5 times on a one-question output (once for the question
text and once per option). -/
theorem translation_iff_counterexample :
    (flowBody "mr"
        { questions := [{ question := "Q", options := ["a", "b", "c", "d"],
                          correctAnswerIndex := 0 }] }).2 = 5 ∧
    ¬ (("mr" : String) ≠ "en" ∧ ("mr" : String) ≠ "mr") :=
  ⟨rfl, by simp⟩

/-- Claim C3 amended: the in-place re-translation pass runs when the detected
language is neither `"en"` nor `"mr"`, and a second, identical pass runs when
it is `"mr"`; hence the `translateText` tool stays uninvoked if and only if
the detected language is `"en"` (or there are no questions to translate). -/
theorem translation_skipped_iff_en (detectedLanguage : String) (output : PromptOutput) :
    (flowBody detectedLanguage output).2 = 0
      ↔ (detectedLanguage = "en" ∨ output.questions = []) := by
  unfold flowBody
  by_cases h1 : detectedLanguage = "en"
  · subst h1
    simp
  · by_cases h2 : detectedLanguage = "mr"
    · subst h2
      simp only [ne_eq, not_true_eq_false, and_false, if_false, if_pos rfl]
      simp [translateAll_count_eq_zero, h1]
    · rw [if_pos ⟨h1, h2⟩]
      simp only [if_neg h2]
      simp [translateAll_count_eq_zero, h1]

/-- Claim C9: the placeholder `detectLanguage` tool returns `"en"` for every
input, so every successful flow run returns a payload whose `language` field
is `"en"`, performs zero `translateText` invocations (neither translation
branch executes), and passes the generator's questions through. -/
theorem detect_always_en (uri : String)
    (promptOracle : FlowInput → String → PromptOutput) (input : FlowInput)
    (h : inputValid input = true) :
    detectLanguageTool uri = "en" ∧
    (generateQuizFromImageFlow promptOracle input).map (fun r => r.1.language)
      = some "en" ∧
    (generateQuizFromImageFlow promptOracle input).map (fun r => r.2) = some 0 ∧
    (generateQuizFromImageFlow promptOracle input).map (fun r => r.1.questions)
      = some (promptOracle input "en").questions := by
  refine ⟨rfl, ?_, ?_, ?_⟩ <;> rw [flow_eval promptOracle input h] <;> rfl

/-- Witness for C9 at the concrete request and oracle. -/
theorem detect_always_en_witness :
    detectLanguageTool "data:image/png;base64,AAAA" = "en" ∧
    (generateQuizFromImageFlow badOracle demoInput).map (fun r => r.1.language)
      = some "en" ∧
    (generateQuizFromImageFlow badOracle demoInput).map (fun r => r.2) = some 0 ∧
    (generateQuizFromImageFlow badOracle demoInput).map (fun r => r.1.questions)
      = some (badOracle demoInput "en").questions :=
  detect_always_en "data:image/png;base64,AAAA" badOracle demoInput rfl

end GenFlow

namespace Analyze

/-- One entry of the `quizHistory` input array of the performance-analysis
flow (part of `AnalyzeQuizPerformanceInputSchema`). -/
structure HistoryEntry where
  question : String
  userAnswer : String
  correctAnswer : String
  isCorrect : Bool
deriving DecidableEq

/-- Input of `analyzeQuizPerformanceFlow`; `numberOfQuestions` is
`z.number()`, an arbitrary JavaScript number, modelled as a rational. -/
structure AnalyzeInput where
  quizHistory : List HistoryEntry
  difficultyLevel : GenFlow.Difficulty
  numberOfQuestions : Rat

/-- Output of the performance-analysis flow. -/
structure AnalyzeOutput where
  overallFeedback : String
  areasForImprovement : List String
  encouragingMessage : String
  score : Rat

/-- `analyzeQuizPerformanceFlow` (lines 100-117 of the analyze flow file):
count the correct history entries, compute
`score = correctAnswers / numberOfQuestions * 100` locally, call the prompt
(an oracle parameter receiving the input and that score), and override the
model's `score` field with the local value. -/
def analyzeQuizPerformanceFlow (model : AnalyzeInput → Rat → AnalyzeOutput)
    (input : AnalyzeInput) : AnalyzeOutput :=
  let correctAnswers := (input.quizHistory.filter (fun q => q.isCorrect)).length
  let score := ((correctAnswers : Rat) / input.numberOfQuestions) * 100
  let output := model input score
  { output with score := score }

/-- Claim C10: the score returned by `analyzeQuizPerformanceFlow` is always
the locally computed
`(count of history entries with isCorrect true / numberOfQuestions) * 100`,
and the score field produced by the model is discarded: any two models give
the same score on the same input. -/
theorem analyze_score_is_local (model model2 : AnalyzeInput → Rat → AnalyzeOutput)
    (input : AnalyzeInput) :
    (analyzeQuizPerformanceFlow model input).score
        = ((input.quizHistory.countP (fun q => q.isCorrect) : Rat)
            / input.numberOfQuestions) * 100 ∧
    (analyzeQuizPerformanceFlow model input).score
        = (analyzeQuizPerformanceFlow model2 input).score := by
  constructor
  · show ((input.quizHistory.filter (fun q => q.isCorrect)).length : Rat)
        / input.numberOfQuestions * 100 = _
    rw [← List.countP_eq_length_filter]
  · rfl

end Analyze

/-- JSON insignificant whitespace characters. -/
def isWsChar (c : Char) : Bool :=
  c = ' ' || c = '\t' || c = '\n' || c = '\r'

/-- Skip insignificant whitespace. -/
def skipWs : List Char → List Char
  | [] => []
  | c :: cs => if isWsChar c then skipWs cs else c :: cs

/-- Numeric value of a hexadecimal digit character. -/
def parseHexDigit (c : Char) : Option Nat :=
  if '0' ≤ c ∧ c ≤ '9' then some (c.toNat - 48)
  else if 'a' ≤ c ∧ c ≤ 'f' then some (c.toNat - 87)
  else if 'A' ≤ c ∧ c ≤ 'F' then some (c.toNat - 55)
  else none

/-- Prepend a character to the parsed body of a string-parser result. -/
def consFst (d : Char) (r : Option (List Char × List Char)) :
    Option (List Char × List Char) :=
  r.map (fun p => (d :: p.1, p.2))

/-- Parse the body of a JSON string literal (after the opening quote),
returning the unescaped characters and the remainder after the closing
quote. -/
def parseStringBody : List Char → Option (List Char × List Char)
  | [] => none
  | c :: cs =>
    if c = '"' then some ([], cs)
    else if c = '\\' then
      match cs with
      | [] => none
      | e :: cs2 =>
        if e = '"' then consFst '"' (parseStringBody cs2)
        else if e = '\\' then consFst '\\' (parseStringBody cs2)
        else if e = '/' then consFst '/' (parseStringBody cs2)
        else if e = 'n' then consFst '\n' (parseStringBody cs2)
        else if e = 'r' then consFst '\r' (parseStringBody cs2)
        else if e = 't' then consFst '\t' (parseStringBody cs2)
        else if e = 'b' then consFst (Char.ofNat 8) (parseStringBody cs2)
        else if e = 'f' then consFst (Char.ofNat 12) (parseStringBody cs2)
        else if e = 'u' then
          match cs2 with
          | h1 :: h2 :: h3 :: h4 :: cs3 =>
            match parseHexDigit h1, parseHexDigit h2, parseHexDigit h3, parseHexDigit h4 with
            | some a, some b, some c2, some d =>
              consFst (Char.ofNat (((a * 16 + b) * 16 + c2) * 16 + d)) (parseStringBody cs3)
            | _, _, _, _ => none
          | _ => none
        else none
    else consFst c (parseStringBody cs)

/-- Consume leading decimal digits, accumulating their value. -/
def parseNatA : List Char → Nat → Nat × List Char
  | [], acc => (acc, [])
  | c :: cs, acc =>
    if c.isDigit then parseNatA cs (acc * 10 + (c.toNat - 48)) else (acc, c :: cs)

/-- One or more decimal digits (the `1*DIGIT` runs of the JSON number
grammar); fails when the input does not start with a digit. -/
def parseDigits1 (cs : List Char) : Option (Nat × List Char) :=
  match cs with
  | [] => none
  | c :: cs1 => if c.isDigit then some (parseNatA cs1 (c.toNat - 48)) else none

/-- The integer part of a JSON number: a single `0`, or a nonzero digit
followed by any run of digits — a redundant leading zero is a
`SyntaxError`. -/
def parseIntPart (cs : List Char) : Option (Nat × List Char) :=
  match cs with
  | [] => none
  | c :: cs1 =>
    if c = '0' then some (0, cs1)
    else if c.isDigit then some (parseNatA cs1 (c.toNat - 48))
    else none

/-- The optional fraction part of a JSON number: a dot must be followed by
at least one digit; without a dot nothing is consumed. -/
def parseFracPart (cs : List Char) : Option (List Char) :=
  match cs with
  | [] => some []
  | c :: cs1 =>
    if c = '.' then
      match parseDigits1 cs1 with
      | some p => some p.2
      | none => none
    else some (c :: cs1)

/-- The optional exponent part of a JSON number: `e`/`E`, an optional sign,
then at least one digit; without the marker nothing is consumed. -/
def parseExpPart (cs : List Char) : Option (List Char) :=
  match cs with
  | [] => some []
  | c :: cs1 =>
    if c = 'e' ∨ c = 'E' then
      match cs1 with
      | [] => none
      | c2 :: cs2 =>
        if c2 = '+' ∨ c2 = '-' then
          match parseDigits1 cs2 with
          | some p => some p.2
          | none => none
        else
          match parseDigits1 cs1 with
          | some p => some p.2
          | none => none
    else some (c :: cs1)

/-- An unsigned JSON number token: integer part, optional fraction, optional
exponent.  The token's modelled value is its integer part: the application's
own serializer emits only integer tokens (for which this is exact), and no
consumer of a foreign payload inspects a parsed number beyond its kind. -/
def parseUnsignedNumber (cs : List Char) : Option (Nat × List Char) :=
  match parseIntPart cs with
  | none => none
  | some (n, r1) =>
    match parseFracPart r1 with
    | none => none
    | some r2 =>
      match parseExpPart r2 with
      | none => none
      | some r3 => some (n, r3)

/-- Parse a JSON number token `[-] int [frac] [exp]` (the grammar
`JSON.parse` accepts: leading zeros rejected, fraction and exponent each
need at least one digit). -/
def parseNumber : List Char → Option (Int × List Char)
  | [] => none
  | c :: cs =>
    if c = '-' then
      match parseUnsignedNumber cs with
      | none => none
      | some (n, r) => some (-(n : Int), r)
    else
      match parseUnsignedNumber (c :: cs) with
      | none => none
      | some (n, r) => some ((n : Int), r)

/-- Match a fixed literal suffix of a keyword. -/
def expectChars : List Char → List Char → Option (List Char)
  | [], cs => some cs
  | _ :: _, [] => none
  | e :: es, c :: cs => if c = e then expectChars es cs else none

mutual

/-- Fuel-indexed JSON value parser; the fuel only bounds recursion depth and
`jsonParse` always supplies enough for its input. -/
def parseValue : Nat → List Char → Option (Json × List Char)
  | 0, _ => none
  | fuel + 1, cs =>
    match skipWs cs with
    | [] => none
    | c :: cs1 =>
      if c = 'n' then (expectChars ['u', 'l', 'l'] cs1).map (fun r => (Json.null, r))
      else if c = 't' then (expectChars ['r', 'u', 'e'] cs1).map (fun r => (Json.bool true, r))
      else if c = 'f' then (expectChars ['a', 'l', 's', 'e'] cs1).map (fun r => (Json.bool false, r))
      else if c = '"' then (parseStringBody cs1).map (fun p => (Json.str ⟨p.1⟩, p.2))
      else if c = '[' then (parseItems fuel cs1).map (fun p => (Json.arr p.1, p.2))
      else if c = lbrace then (parseFields fuel cs1).map (fun p => (Json.obj p.1, p.2))
      else (parseNumber (c :: cs1)).map (fun p => (Json.num p.1, p.2))

/-- Parse array elements following the opening bracket. -/
def parseItems : Nat → List Char → Option (List Json × List Char)
  | 0, _ => none
  | fuel + 1, cs =>
    match skipWs cs with
    | [] => none
    | c :: cs1 =>
      if c = ']' then some ([], cs1)
      else
        match parseValue fuel (c :: cs1) with
        | none => none
        | some (v, r) =>
          match skipWs r with
          | [] => none
          | c2 :: r2 =>
            if c2 = ',' then
              match parseItems fuel r2 with
              | none => none
              | some (vs, r3) => some (v :: vs, r3)
            else if c2 = ']' then some ([v], r2)
            else none

/-- Parse object fields following the opening brace. -/
def parseFields : Nat → List Char → Option (List (String × Json) × List Char)
  | 0, _ => none
  | fuel + 1, cs =>
    match skipWs cs with
    | [] => none
    | c :: cs1 =>
      if c = rbrace then some ([], cs1)
      else if c = '"' then
        match parseStringBody cs1 with
        | none => none
        | some (k, r) =>
          match skipWs r with
          | [] => none
          | c2 :: r2 =>
            if c2 = ':' then
              match parseValue fuel r2 with
              | none => none
              | some (v, r3) =>
                match skipWs r3 with
                | [] => none
                | c3 :: r4 =>
                  if c3 = ',' then
                    match parseFields fuel r4 with
                    | none => none
                    | some (fs, r5) => some ((⟨k⟩, v) :: fs, r5)
                  else if c3 = rbrace then some ([(⟨k⟩, v)], r4)
                  else none
            else none
      else none

end

/-- `JSON.parse`: parse one value and require only whitespace to remain;
`none` models a thrown `SyntaxError`.  Fuel `length + 1` is always enough
because every recursion level consumes at least one input character. -/
def jsonParse (s : String) : Option Json :=
  match parseValue (s.data.length + 1) s.data with
  | some (j, rest) => if skipWs rest = [] then some j else none
  | none => none

theorem parseHexDigit_hexChar : ∀ d, d < 16 → parseHexDigit (hexChar d) = some d := by
  decide

theorem digitToChar_isDigit : ∀ d, d < 10 → (digitToChar d).isDigit = true := by
  decide

theorem digitToChar_toNat : ∀ d, d < 10 → (digitToChar d).toNat - 48 = d := by
  decide

theorem digitToChar_head_facts : ∀ d, d < 10 →
    (isWsChar (digitToChar d) = false ∧ digitToChar d ≠ ']' ∧ digitToChar d ≠ '-' ∧
     digitToChar d ≠ 'n' ∧ digitToChar d ≠ 't' ∧ digitToChar d ≠ 'f' ∧
     digitToChar d ≠ '"' ∧ digitToChar d ≠ '[' ∧ digitToChar d ≠ lbrace) := by
  decide

theorem skipWs_not_ws {c : Char} (h : isWsChar c = false) (cs : List Char) :
    skipWs (c :: cs) = c :: cs := by
  unfold skipWs
  rw [h]
  simp


theorem psb_close (rest : List Char) : parseStringBody ('"' :: rest) = some ([], rest) := by
  conv_lhs => unfold parseStringBody
  rw [if_pos rfl]

theorem psb_esc_quote (t : List Char) :
    parseStringBody ('\\' :: '"' :: t) = consFst '"' (parseStringBody t) := by
  conv_lhs => unfold parseStringBody
  rw [if_neg (by decide), if_pos rfl]
  dsimp only
  rw [if_pos rfl]

theorem psb_esc_backslash (t : List Char) :
    parseStringBody ('\\' :: '\\' :: t) = consFst '\\' (parseStringBody t) := by
  conv_lhs => unfold parseStringBody
  rw [if_neg (by decide), if_pos rfl]
  dsimp only
  rw [if_neg (by decide), if_pos rfl]

theorem psb_esc_n (t : List Char) :
    parseStringBody ('\\' :: 'n' :: t) = consFst '\n' (parseStringBody t) := by
  conv_lhs => unfold parseStringBody
  rw [if_neg (by decide), if_pos rfl]
  dsimp only
  rw [if_neg (by decide), if_neg (by decide), if_neg (by decide), if_pos rfl]

theorem psb_esc_r (t : List Char) :
    parseStringBody ('\\' :: 'r' :: t) = consFst '\r' (parseStringBody t) := by
  conv_lhs => unfold parseStringBody
  rw [if_neg (by decide), if_pos rfl]
  dsimp only
  rw [if_neg (by decide), if_neg (by decide), if_neg (by decide), if_neg (by decide),
    if_pos rfl]

theorem psb_esc_t (t : List Char) :
    parseStringBody ('\\' :: 't' :: t) = consFst '\t' (parseStringBody t) := by
  conv_lhs => unfold parseStringBody
  rw [if_neg (by decide), if_pos rfl]
  dsimp only
  rw [if_neg (by decide), if_neg (by decide), if_neg (by decide), if_neg (by decide),
    if_neg (by decide), if_pos rfl]

theorem psb_esc_b (t : List Char) :
    parseStringBody ('\\' :: 'b' :: t) = consFst (Char.ofNat 8) (parseStringBody t) := by
  conv_lhs => unfold parseStringBody
  rw [if_neg (by decide), if_pos rfl]
  dsimp only
  rw [if_neg (by decide), if_neg (by decide), if_neg (by decide), if_neg (by decide),
    if_neg (by decide), if_neg (by decide), if_pos rfl]

theorem psb_esc_f (t : List Char) :
    parseStringBody ('\\' :: 'f' :: t) = consFst (Char.ofNat 12) (parseStringBody t) := by
  conv_lhs => unfold parseStringBody
  rw [if_neg (by decide), if_pos rfl]
  dsimp only
  rw [if_neg (by decide), if_neg (by decide), if_neg (by decide), if_neg (by decide),
    if_neg (by decide), if_neg (by decide), if_neg (by decide), if_pos rfl]

theorem psb_esc_u (x1 x2 x3 x4 : Char) (t : List Char) (a b c2 d : Nat)
    (h1 : parseHexDigit x1 = some a) (h2 : parseHexDigit x2 = some b)
    (h3 : parseHexDigit x3 = some c2) (h4 : parseHexDigit x4 = some d) :
    parseStringBody ('\\' :: 'u' :: x1 :: x2 :: x3 :: x4 :: t)
      = consFst (Char.ofNat (((a * 16 + b) * 16 + c2) * 16 + d)) (parseStringBody t) := by
  conv_lhs => unfold parseStringBody
  rw [if_neg (by decide), if_pos rfl]
  dsimp only
  rw [if_neg (by decide), if_neg (by decide), if_neg (by decide), if_neg (by decide),
    if_neg (by decide), if_neg (by decide), if_neg (by decide), if_neg (by decide),
    if_pos rfl]
  rw [h1, h2, h3, h4]

theorem psb_plain {c : Char} (h1 : c ≠ '"') (h2 : c ≠ '\\') (t : List Char) :
    parseStringBody (c :: t) = consFst c (parseStringBody t) := by
  conv_lhs => unfold parseStringBody
  rw [if_neg h1, if_neg h2]

theorem parseStringBody_escape (l rest : List Char) :
    parseStringBody (escapeList l ++ '"' :: rest) = some (l, rest) := by
  induction l with
  | nil => exact psb_close rest
  | cons c cs ih =>
    rw [show escapeList (c :: cs) = escapeChar c ++ escapeList cs from rfl, List.append_assoc]
    unfold escapeChar
    by_cases h1 : c = '"'
    · subst h1
      rw [if_pos rfl]
      show parseStringBody ('\\' :: '"' :: (escapeList cs ++ '"' :: rest)) = _
      rw [psb_esc_quote, ih]
      rfl
    · rw [if_neg h1]
      by_cases h2 : c = '\\'
      · subst h2
        rw [if_pos rfl]
        show parseStringBody ('\\' :: '\\' :: (escapeList cs ++ '"' :: rest)) = _
        rw [psb_esc_backslash, ih]
        rfl
      · rw [if_neg h2]
        by_cases h3 : c = '\n'
        · subst h3
          rw [if_pos rfl]
          show parseStringBody ('\\' :: 'n' :: (escapeList cs ++ '"' :: rest)) = _
          rw [psb_esc_n, ih]
          rfl
        · rw [if_neg h3]
          by_cases h4 : c = '\r'
          · subst h4
            rw [if_pos rfl]
            show parseStringBody ('\\' :: 'r' :: (escapeList cs ++ '"' :: rest)) = _
            rw [psb_esc_r, ih]
            rfl
          · rw [if_neg h4]
            by_cases h5 : c = '\t'
            · subst h5
              rw [if_pos rfl]
              show parseStringBody ('\\' :: 't' :: (escapeList cs ++ '"' :: rest)) = _
              rw [psb_esc_t, ih]
              rfl
            · rw [if_neg h5]
              by_cases h6 : c = Char.ofNat 8
              · rw [if_pos h6]
                show parseStringBody ('\\' :: 'b' :: (escapeList cs ++ '"' :: rest)) = _
                rw [psb_esc_b, ih]
                subst h6
                rfl
              · rw [if_neg h6]
                by_cases h7 : c = Char.ofNat 12
                · rw [if_pos h7]
                  show parseStringBody ('\\' :: 'f' :: (escapeList cs ++ '"' :: rest)) = _
                  rw [psb_esc_f, ih]
                  subst h7
                  rfl
                · rw [if_neg h7]
                  by_cases h8 : c.toNat < 32
                  · rw [if_pos h8]
                    show parseStringBody
                        ('\\' :: 'u' :: '0' :: '0' :: hexChar (c.toNat / 16) ::
                          hexChar (c.toNat % 16) :: (escapeList cs ++ '"' :: rest)) = _
                    rw [psb_esc_u '0' '0' (hexChar (c.toNat / 16))
                        (hexChar (c.toNat % 16)) _ 0 0 (c.toNat / 16) (c.toNat % 16)
                        rfl rfl
                        (parseHexDigit_hexChar (c.toNat / 16) (by omega))
                        (parseHexDigit_hexChar (c.toNat % 16) (by omega))]
                    have harith : ((0 * 16 + 0) * 16 + c.toNat / 16) * 16 + c.toNat % 16
                        = c.toNat := by omega
                    rw [harith, Char.ofNat_toNat, ih]
                    rfl
                  · rw [if_neg h8]
                    show parseStringBody (c :: (escapeList cs ++ '"' :: rest)) = _
                    rw [psb_plain h1 h2, ih]
                    rfl

/-- The remainder a numeral parse may be followed by without being absorbed:
empty input or a non-digit first character. -/
def nextOk (cs : List Char) : Bool :=
  match cs with
  | [] => true
  | ch :: _ => !(ch.isDigit || ch == '.' || ch == 'e' || ch == 'E')

theorem nextOk_facts {c : Char} {cs : List Char} (h : nextOk (c :: cs) = true) :
    c.isDigit = false ∧ ¬ c = '.' ∧ ¬ c = 'e' ∧ ¬ c = 'E' := by
  simp only [nextOk, Bool.not_eq_true', Bool.or_eq_false_iff, beq_eq_false_iff_ne, ne_eq] at h
  obtain ⟨⟨⟨hdig, hdot⟩, hlo⟩, hup⟩ := h
  exact ⟨hdig, hdot, hlo, hup⟩

theorem parseNatA_digits : ∀ (ds : List Nat), (∀ d ∈ ds, d < 10) →
    ∀ (rest : List Char), nextOk rest = true → ∀ acc,
    parseNatA (ds.map digitToChar ++ rest) acc
      = (ds.foldl (fun a d => a * 10 + d) acc, rest) := by
  intro ds
  induction ds with
  | nil =>
    intro _ rest hrest acc
    cases rest with
    | nil => rfl
    | cons c cs =>
      have hc : c.isDigit = false := (nextOk_facts hrest).1
      show parseNatA (c :: cs) acc = (acc, c :: cs)
      conv_lhs => unfold parseNatA
      rw [if_neg (by simp [hc])]
  | cons d ds ih =>
    intro hds rest hrest acc
    have hd : d < 10 := hds d (List.mem_cons_self d ds)
    show parseNatA (digitToChar d :: (ds.map digitToChar ++ rest)) acc = _
    conv_lhs => unfold parseNatA
    rw [if_pos (digitToChar_isDigit d hd), digitToChar_toNat d hd]
    rw [ih (fun x hx => hds x (List.mem_cons_of_mem d hx)) rest hrest]
    rw [List.foldl_cons]

theorem parseNatA_natToDec (n : Nat) (rest : List Char) (hrest : nextOk rest = true) :
    parseNatA (natToDec n ++ rest) 0 = (n, rest) := by
  unfold natToDec
  rw [parseNatA_digits (natDigits n) (natDigits_lt n) rest hrest 0, natDigits_val]

theorem natToDec_head (n : Nat) :
    ∃ d tail, natToDec n = digitToChar d :: tail ∧ d < 10 := by
  unfold natToDec
  cases h : natDigits n with
  | nil => exact absurd h (natDigits_ne_nil n)
  | cons d tail =>
    refine ⟨d, tail.map digitToChar, by simp, ?_⟩
    exact natDigits_lt n d (by rw [h]; exact List.mem_cons_self d tail)

theorem natDigits_head_pos : ∀ n : Nat, n ≠ 0 →
    ∃ d ds, natDigits n = d :: ds ∧ 0 < d ∧ d < 10 := by
  intro n
  induction n using Nat.strong_induction_on with
  | _ n ih =>
    intro hn
    unfold natDigits
    split
    · next h => exact ⟨n, [], rfl, Nat.pos_of_ne_zero hn, h⟩
    · next h =>
      obtain ⟨d, ds, hds, hd0, hd10⟩ :=
        ih (n / 10) (Nat.div_lt_self (by omega) (by decide)) (by omega)
      exact ⟨d, ds ++ [n % 10], by rw [hds]; rfl, hd0, hd10⟩

theorem digitToChar_pos_facts : ∀ d, d < 10 → 0 < d → digitToChar d ≠ '0' := by
  decide

theorem parseIntPart_natToDec (n : Nat) (rest : List Char) (hrest : nextOk rest = true) :
    parseIntPart (natToDec n ++ rest) = some (n, rest) := by
  by_cases hn : n = 0
  · subst hn
    have h0 : natToDec 0 = ['0'] := by
      unfold natToDec natDigits
      rfl
    rw [h0]
    show parseIntPart ('0' :: rest) = some (0, rest)
    unfold parseIntPart
    dsimp only
    rw [if_pos rfl]
  · obtain ⟨d, ds, hds, hd0, hd10⟩ := natDigits_head_pos n hn
    have hdec : natToDec n = digitToChar d :: ds.map digitToChar := by
      unfold natToDec
      rw [hds]
      rfl
    have hfull := parseNatA_natToDec n rest hrest
    rw [hdec, List.cons_append] at hfull
    have hstep : parseNatA (digitToChar d :: (ds.map digitToChar ++ rest)) 0
        = parseNatA (ds.map digitToChar ++ rest) d := by
      conv_lhs => unfold parseNatA
      rw [if_pos (digitToChar_isDigit d hd10), digitToChar_toNat d hd10,
          Nat.zero_mul, Nat.zero_add]
    rw [hstep] at hfull
    rw [hdec, List.cons_append]
    unfold parseIntPart
    dsimp only
    rw [if_neg (digitToChar_pos_facts d hd10 hd0), if_pos (digitToChar_isDigit d hd10),
        digitToChar_toNat d hd10, hfull]

theorem parseFracPart_nextOk (rest : List Char) (hrest : nextOk rest = true) :
    parseFracPart rest = some rest := by
  cases rest with
  | nil => rfl
  | cons c cs =>
    unfold parseFracPart
    dsimp only
    rw [if_neg (nextOk_facts hrest).2.1]

theorem parseExpPart_nextOk (rest : List Char) (hrest : nextOk rest = true) :
    parseExpPart rest = some rest := by
  cases rest with
  | nil => rfl
  | cons c cs =>
    have hc : ¬ (c = 'e' ∨ c = 'E') := by
      rintro (h | h)
      · exact (nextOk_facts hrest).2.2.1 h
      · exact (nextOk_facts hrest).2.2.2 h
    unfold parseExpPart
    dsimp only
    rw [if_neg hc]

theorem parseUnsignedNumber_natToDec (n : Nat) (rest : List Char)
    (hrest : nextOk rest = true) :
    parseUnsignedNumber (natToDec n ++ rest) = some (n, rest) := by
  unfold parseUnsignedNumber
  rw [parseIntPart_natToDec n rest hrest]
  dsimp only
  rw [parseFracPart_nextOk rest hrest]
  dsimp only
  rw [parseExpPart_nextOk rest hrest]

theorem parseNumber_intDec (n : Int) (rest : List Char) (hrest : nextOk rest = true) :
    parseNumber (intDec n ++ rest) = some (n, rest) := by
  unfold intDec
  by_cases hneg : n < 0
  · rw [if_pos hneg]
    show parseNumber ('-' :: (natToDec n.natAbs ++ rest)) = _
    conv_lhs => unfold parseNumber
    dsimp only
    rw [if_pos rfl]
    rw [parseUnsignedNumber_natToDec n.natAbs rest hrest]
    dsimp only
    simp only [Option.some.injEq, Prod.mk.injEq]
    exact ⟨by omega, trivial⟩
  · rw [if_neg hneg]
    obtain ⟨d, tail, hdec, hd⟩ := natToDec_head n.natAbs
    have hsplit : natToDec n.natAbs ++ rest = digitToChar d :: (tail ++ rest) := by
      rw [hdec]
      rfl
    rw [hsplit]
    conv_lhs => unfold parseNumber
    dsimp only
    rw [if_neg ((digitToChar_head_facts d hd).2.2.1)]
    rw [← hsplit, parseUnsignedNumber_natToDec n.natAbs rest hrest]
    dsimp only
    simp only [Option.some.injEq, Prod.mk.injEq]
    exact ⟨by omega, trivial⟩

theorem serialize_null : serialize Json.null = ['n', 'u', 'l', 'l'] := by
  simp [serialize]

theorem serialize_true : serialize (Json.bool true) = ['t', 'r', 'u', 'e'] := by
  simp [serialize]

theorem serialize_false : serialize (Json.bool false) = ['f', 'a', 'l', 's', 'e'] := by
  simp [serialize]

theorem serialize_num (n : Int) : serialize (Json.num n) = intDec n := by
  simp [serialize]

theorem serialize_str (s : String) :
    serialize (Json.str s) = '"' :: escapeString s ++ ['"'] := by
  simp [serialize]

theorem serialize_arr (es : List Json) :
    serialize (Json.arr es) = '[' :: joinComma (serializeList es) ++ [']'] := by
  simp [serialize]

theorem serialize_obj (fs : List (String × Json)) :
    serialize (Json.obj fs) = lbrace :: joinComma (serializeFields fs) ++ [rbrace] := by
  simp [serialize]

theorem serializeList_nil : serializeList [] = [] := by
  simp [serializeList]

theorem serializeList_cons (x : Json) (xs : List Json) :
    serializeList (x :: xs) = serialize x :: serializeList xs := by
  simp [serializeList]

theorem serializeFields_nil : serializeFields [] = [] := by
  simp [serializeFields]

theorem serializeFields_cons (k : String) (v : Json) (fs : List (String × Json)) :
    serializeFields ((k, v) :: fs)
      = ('"' :: escapeString k ++ '"' :: ':' :: serialize v) :: serializeFields fs := by
  simp [serializeFields]

theorem serialize_head (j : Json) :
    ∃ c tail, serialize j = c :: tail ∧ isWsChar c = false ∧ c ≠ ']' := by
  cases j with
  | null => exact ⟨'n', _, serialize_null, by decide⟩
  | bool b =>
    cases b with
    | false => exact ⟨'f', _, serialize_false, by decide⟩
    | true => exact ⟨'t', _, serialize_true, by decide⟩
  | num m =>
    rw [serialize_num]
    unfold intDec
    by_cases h : m < 0
    · rw [if_pos h]
      exact ⟨'-', _, rfl, by decide⟩
    · rw [if_neg h]
      obtain ⟨d, tail, hdec, hd⟩ := natToDec_head m.natAbs
      rw [hdec]
      exact ⟨digitToChar d, tail, rfl, (digitToChar_head_facts d hd).1,
        (digitToChar_head_facts d hd).2.1⟩
  | str s => exact ⟨'"', _, serialize_str s, by decide⟩
  | arr es => exact ⟨'[', _, serialize_arr es, by decide⟩
  | obj fs => exact ⟨lbrace, _, serialize_obj fs, by decide⟩

theorem skipWs_serialize (j : Json) (rest : List Char) :
    skipWs (serialize j ++ rest) = serialize j ++ rest := by
  obtain ⟨c, tail, hj, hws, -⟩ := serialize_head j
  rw [hj]
  exact skipWs_not_ws hws _

theorem expectChars_prefix (es cs : List Char) : expectChars es (es ++ cs) = some cs := by
  induction es with
  | nil => rfl
  | cons e es ih =>
    show expectChars (e :: es) (e :: (es ++ cs)) = some cs
    conv_lhs => unfold expectChars
    rw [if_pos rfl, ih]

theorem joinComma_cons_cons (a b : List Char) (rest : List (List Char)) :
    joinComma (a :: b :: rest) = a ++ ',' :: joinComma (b :: rest) := by
  simp [joinComma]

theorem nextOk_cons {c : Char} (h : (c.isDigit || c == 'e' || c == 'E' || c == '.') = false)
    (cs : List Char) : nextOk (c :: cs) = true := by
  simp only [Bool.or_eq_false_iff] at h
  obtain ⟨⟨⟨hdig, hlo⟩, hup⟩, hdot⟩ := h
  simp [nextOk, hdig, hlo, hup, hdot]

theorem parseItems_round (es : List Json)
    (helem : ∀ x ∈ es, ∀ (fuel : Nat) (rest : List Char),
        (serialize x).length ≤ fuel → nextOk rest = true →
        parseValue fuel (serialize x ++ rest) = some (x, rest)) :
    ∀ (fuel : Nat) (rest : List Char),
      (joinComma (serializeList es)).length + 1 ≤ fuel →
      parseItems fuel (joinComma (serializeList es) ++ ']' :: rest) = some (es, rest) := by
  induction es with
  | nil =>
    intro fuel rest hfuel
    rw [serializeList_nil]
    cases fuel with
    | zero => omega
    | succ f =>
      show parseItems (f + 1) (']' :: rest) = some ([], rest)
      conv_lhs => unfold parseItems
      rw [skipWs_not_ws (by decide)]
      dsimp only
      rw [if_pos rfl]
  | cons x xs ih =>
    intro fuel rest hfuel
    rw [serializeList_cons] at hfuel ⊢
    cases fuel with
    | zero => omega
    | succ f =>
      obtain ⟨c, tail, hx, hws, hbr⟩ := serialize_head x
      cases xs with
      | nil =>
        rw [serializeList_nil] at hfuel ⊢
        show parseItems (f + 1) (joinComma [serialize x] ++ ']' :: rest) = some ([x], rest)
        rw [show joinComma [serialize x] = serialize x from rfl] at hfuel ⊢
        conv_lhs => unfold parseItems
        rw [skipWs_serialize x (']' :: rest), hx]
        dsimp only [List.cons_append]
        rw [if_neg hbr]
        rw [show c :: (tail ++ ']' :: rest) = serialize x ++ ']' :: rest from by rw [hx]; rfl]
        rw [helem x (List.mem_cons_self x []) f (']' :: rest)
            (by rw [hx] at hfuel ⊢; simp at hfuel ⊢; omega) (nextOk_cons (by decide) _)]
        dsimp only
        rw [skipWs_not_ws (by decide)]
        dsimp only
        rw [if_neg (by decide), if_pos rfl]
      | cons y ys =>
        rw [serializeList_cons] at hfuel ⊢
        rw [joinComma_cons_cons] at hfuel ⊢
        have hbound : (serialize x).length + 1
            + (joinComma (serialize y :: serializeList ys)).length + 1 ≤ f + 1 := by
          simp only [List.length_append, List.length_cons] at hfuel
          omega
        show parseItems (f + 1)
            ((serialize x ++ ',' :: joinComma (serialize y :: serializeList ys)) ++ ']' :: rest)
          = some (x :: y :: ys, rest)
        rw [List.append_assoc]
        conv_lhs => unfold parseItems
        rw [show (',' :: joinComma (serialize y :: serializeList ys)) ++ ']' :: rest
            = ',' :: (joinComma (serialize y :: serializeList ys) ++ ']' :: rest) from rfl]
        rw [skipWs_serialize x _, hx]
        dsimp only [List.cons_append]
        rw [if_neg hbr]
        rw [show c :: (tail ++ ',' :: (joinComma (serialize y :: serializeList ys) ++ ']' :: rest))
            = serialize x ++ ',' :: (joinComma (serialize y :: serializeList ys) ++ ']' :: rest)
            from by rw [hx]; rfl]
        rw [helem x (List.mem_cons_self x (y :: ys)) f _
            (by rw [hx] at hbound ⊢; simp at hbound ⊢; omega) (nextOk_cons (by decide) _)]
        dsimp only
        rw [skipWs_not_ws (by decide)]
        dsimp only
        rw [if_pos rfl]
        rw [← serializeList_cons] at hbound ⊢
        rw [ih (fun z hz => helem z (List.mem_cons_of_mem x hz)) f rest (by omega)]

theorem field_frag_append (k : String) (v : Json) (X : List Char) :
    ('"' :: escapeString k ++ '"' :: ':' :: serialize v) ++ X
      = '"' :: (escapeList k.data ++ '"' :: (':' :: (serialize v ++ X))) := by
  simp [escapeString, List.cons_append, List.append_assoc]

theorem parseFields_round (fs : List (String × Json))
    (helem : ∀ x ∈ fs, ∀ (fuel : Nat) (rest : List Char),
        (serialize x.2).length ≤ fuel → nextOk rest = true →
        parseValue fuel (serialize x.2 ++ rest) = some (x.2, rest)) :
    ∀ (fuel : Nat) (rest : List Char),
      (joinComma (serializeFields fs)).length + 1 ≤ fuel →
      parseFields fuel (joinComma (serializeFields fs) ++ rbrace :: rest)
        = some (fs, rest) := by
  induction fs with
  | nil =>
    intro fuel rest hfuel
    rw [serializeFields_nil]
    cases fuel with
    | zero => omega
    | succ f =>
      show parseFields (f + 1) (rbrace :: rest) = some ([], rest)
      conv_lhs => unfold parseFields
      rw [skipWs_not_ws (by decide)]
      dsimp only
      rw [if_pos rfl]
  | cons kv fs ih =>
    obtain ⟨k, v⟩ := kv
    intro fuel rest hfuel
    rw [serializeFields_cons] at hfuel ⊢
    cases fuel with
    | zero => omega
    | succ f =>
      cases fs with
      | nil =>
        rw [serializeFields_nil] at hfuel ⊢
        rw [show joinComma [('"' :: escapeString k ++ '"' :: ':' :: serialize v)]
            = '"' :: escapeString k ++ '"' :: ':' :: serialize v from rfl] at hfuel ⊢
        rw [field_frag_append]
        have hvlen : (serialize v).length ≤ f := by
          simp only [List.length_cons, List.length_append] at hfuel
          omega
        conv_lhs => unfold parseFields
        rw [skipWs_not_ws (by decide)]
        dsimp only
        rw [if_neg (by decide), if_pos rfl]
        rw [parseStringBody_escape]
        dsimp only
        rw [skipWs_not_ws (by decide)]
        dsimp only
        rw [if_pos rfl]
        rw [helem (k, v) (List.mem_cons_self _ _) f _ hvlen (nextOk_cons (by decide) _)]
        dsimp only
        rw [skipWs_not_ws (by decide)]
        dsimp only
        rw [if_neg (by decide), if_pos rfl]
      | cons kv2 fs2 =>
        obtain ⟨k2, v2⟩ := kv2
        rw [serializeFields_cons k2 v2] at hfuel ⊢
        rw [joinComma_cons_cons] at hfuel ⊢
        rw [List.append_assoc]
        rw [show (',' :: joinComma (('"' :: escapeString k2 ++ '"' :: ':' :: serialize v2)
              :: serializeFields fs2)) ++ rbrace :: rest
            = ',' :: (joinComma (('"' :: escapeString k2 ++ '"' :: ':' :: serialize v2)
              :: serializeFields fs2) ++ rbrace :: rest) from rfl]
        rw [field_frag_append]
        have hvlen : (serialize v).length ≤ f := by
          simp only [List.length_cons, List.length_append] at hfuel
          omega
        have hjlen : (joinComma (('"' :: escapeString k2 ++ '"' :: ':' :: serialize v2)
            :: serializeFields fs2)).length + 1 ≤ f := by
          simp only [List.length_cons, List.length_append] at hfuel
          omega
        conv_lhs => unfold parseFields
        rw [skipWs_not_ws (by decide)]
        dsimp only
        rw [if_neg (by decide), if_pos rfl]
        rw [parseStringBody_escape]
        dsimp only
        rw [skipWs_not_ws (by decide)]
        dsimp only
        rw [if_pos rfl]
        rw [helem (k, v) (List.mem_cons_self _ _) f _ hvlen (nextOk_cons (by decide) _)]
        dsimp only
        rw [skipWs_not_ws (by decide)]
        dsimp only
        rw [if_pos rfl]
        rw [← serializeFields_cons k2 v2] at hjlen ⊢
        rw [ih (fun z hz => helem z (List.mem_cons_of_mem _ hz)) f rest hjlen]

theorem intDec_head_facts (m : Int) : ∃ ch tail, intDec m = ch :: tail ∧
    isWsChar ch = false ∧ ch ≠ 'n' ∧ ch ≠ 't' ∧
    ch ≠ 'f' ∧ ch ≠ '"' ∧ ch ≠ '[' ∧ ch ≠ lbrace := by
  unfold intDec
  by_cases h : m < 0
  · rw [if_pos h]
    exact ⟨'-', _, rfl, by decide⟩
  · rw [if_neg h]
    obtain ⟨d, tail, hdec, hd⟩ := natToDec_head m.natAbs
    rw [hdec]
    obtain ⟨hws, -, -, hn, ht, hf, hq, hlb, hob⟩ := digitToChar_head_facts d hd
    exact ⟨digitToChar d, tail, rfl, hws, hn, ht, hf, hq, hlb, hob⟩

theorem parseValue_serialize_aux (n : Nat) : ∀ (j : Json), sizeOf j = n →
    ∀ (fuel : Nat) (rest : List Char), (serialize j).length ≤ fuel → nextOk rest = true →
    parseValue fuel (serialize j ++ rest) = some (j, rest) := by
  induction n using Nat.strong_induction_on with
  | _ n ih =>
    intro j hn fuel rest hfuel hrest
    cases j with
    | null =>
      rw [serialize_null] at hfuel ⊢
      cases fuel with
      | zero => simp at hfuel
      | succ f =>
        show parseValue (f + 1) ('n' :: ('u' :: 'l' :: 'l' :: rest)) = _
        conv_lhs => unfold parseValue
        rw [skipWs_not_ws (by decide)]
        dsimp only
        rw [if_pos rfl]
        rw [show ('u' :: 'l' :: 'l' :: rest) = ['u', 'l', 'l'] ++ rest from rfl,
          expectChars_prefix]
        rfl
    | bool b =>
      cases b with
      | true =>
        rw [serialize_true] at hfuel ⊢
        cases fuel with
        | zero => simp at hfuel
        | succ f =>
          show parseValue (f + 1) ('t' :: ('r' :: 'u' :: 'e' :: rest)) = _
          conv_lhs => unfold parseValue
          rw [skipWs_not_ws (by decide)]
          dsimp only
          rw [if_neg (by decide), if_pos rfl]
          rw [show ('r' :: 'u' :: 'e' :: rest) = ['r', 'u', 'e'] ++ rest from rfl,
            expectChars_prefix]
          rfl
      | false =>
        rw [serialize_false] at hfuel ⊢
        cases fuel with
        | zero => simp at hfuel
        | succ f =>
          show parseValue (f + 1) ('f' :: ('a' :: 'l' :: 's' :: 'e' :: rest)) = _
          conv_lhs => unfold parseValue
          rw [skipWs_not_ws (by decide)]
          dsimp only
          rw [if_neg (by decide), if_neg (by decide), if_pos rfl]
          rw [show ('a' :: 'l' :: 's' :: 'e' :: rest) = ['a', 'l', 's', 'e'] ++ rest from rfl,
            expectChars_prefix]
          rfl
    | num m =>
      rw [serialize_num] at hfuel ⊢
      obtain ⟨c, tail, hm, hws, hcn, hct, hcf, hcq, hclb, hcob⟩ := intDec_head_facts m
      rw [hm] at hfuel
      cases fuel with
      | zero => simp at hfuel
      | succ f =>
        rw [hm]
        show parseValue (f + 1) (c :: (tail ++ rest)) = _
        conv_lhs => unfold parseValue
        rw [skipWs_not_ws hws]
        dsimp only
        rw [if_neg hcn, if_neg hct, if_neg hcf, if_neg hcq, if_neg hclb, if_neg hcob]
        rw [show c :: (tail ++ rest) = intDec m ++ rest from by rw [hm]; rfl]
        rw [parseNumber_intDec m rest hrest]
        rfl
    | str s =>
      rw [serialize_str] at hfuel ⊢
      cases fuel with
      | zero => simp at hfuel
      | succ f =>
        rw [show ('"' :: escapeString s ++ ['"']) ++ rest
            = '"' :: (escapeList s.data ++ '"' :: rest) from by
          simp [escapeString, List.cons_append, List.append_assoc]]
        conv_lhs => unfold parseValue
        rw [skipWs_not_ws (by decide)]
        dsimp only
        rw [if_neg (by decide), if_neg (by decide), if_neg (by decide), if_pos rfl]
        rw [parseStringBody_escape]
        rfl
    | arr es =>
      rw [serialize_arr] at hfuel ⊢
      cases fuel with
      | zero => simp at hfuel
      | succ f =>
        have helem : ∀ x ∈ es, ∀ (fuel' : Nat) (rest' : List Char),
            (serialize x).length ≤ fuel' → nextOk rest' = true →
            parseValue fuel' (serialize x ++ rest') = some (x, rest') := by
          intro x hx
          have h1 := List.sizeOf_lt_of_mem hx
          have h2 : sizeOf (Json.arr es) = 1 + sizeOf es := by simp
          exact ih (sizeOf x) (by omega) x rfl
        rw [show ('[' :: joinComma (serializeList es) ++ [']']) ++ rest
            = '[' :: (joinComma (serializeList es) ++ ']' :: rest) from by
          simp [List.cons_append, List.append_assoc]]
        conv_lhs => unfold parseValue
        rw [skipWs_not_ws (by decide)]
        dsimp only
        rw [if_neg (by decide), if_neg (by decide), if_neg (by decide), if_neg (by decide),
          if_pos rfl]
        rw [parseItems_round es helem f rest (by
          simp only [List.length_cons, List.length_append, List.length_singleton] at hfuel
          omega)]
        rfl
    | obj fs =>
      rw [serialize_obj] at hfuel ⊢
      cases fuel with
      | zero => simp at hfuel
      | succ f =>
        have helem : ∀ x ∈ fs, ∀ (fuel' : Nat) (rest' : List Char),
            (serialize x.2).length ≤ fuel' → nextOk rest' = true →
            parseValue fuel' (serialize x.2 ++ rest') = some (x.2, rest') := by
          intro x hx
          obtain ⟨k, v⟩ := x
          have h1 := List.sizeOf_lt_of_mem hx
          have h2 : sizeOf (Json.obj fs) = 1 + sizeOf fs := by simp
          have h3 : sizeOf ((k, v) : String × Json) = 1 + sizeOf k + sizeOf v := by simp
          exact ih (sizeOf v) (by omega) v rfl
        rw [show (lbrace :: joinComma (serializeFields fs) ++ [rbrace]) ++ rest
            = lbrace :: (joinComma (serializeFields fs) ++ rbrace :: rest) from by
          simp [List.cons_append, List.append_assoc]]
        conv_lhs => unfold parseValue
        rw [skipWs_not_ws (by decide)]
        dsimp only
        rw [if_neg (by decide), if_neg (by decide), if_neg (by decide), if_neg (by decide),
          if_neg (by decide), if_pos rfl]
        rw [parseFields_round fs helem f rest (by
          simp only [List.length_cons, List.length_append, List.length_singleton] at hfuel
          omega)]
        rfl

theorem parseValue_serialize (j : Json) (fuel : Nat) (rest : List Char)
    (hfuel : (serialize j).length ≤ fuel) (hrest : nextOk rest = true) :
    parseValue fuel (serialize j ++ rest) = some (j, rest) :=
  parseValue_serialize_aux (sizeOf j) j rfl fuel rest hfuel hrest

/-- Round trip of the JSON layer: parsing a serialized value yields the value
back. -/
theorem jsonParse_stringify (j : Json) : jsonParse (jsonStringify j) = some j := by
  unfold jsonParse jsonStringify
  rw [show (String.mk (serialize j)).data = serialize j from rfl]
  have h := parseValue_serialize j ((serialize j).length + 1) [] (by omega) (by decide)
  rw [List.append_nil] at h
  rw [h]
  rfl

namespace ResultsPage

/-- The runtime error a property access or index on `undefined`/`null`
throws while rendering. -/
inductive PageErr where
  | typeError
deriving DecidableEq

/-- First-match property lookup in a parsed JSON object. -/
def lookupField : List (String × Json) → String → Option Json
  | [], _ => none
  | (k, v) :: fs, key => if k = key then some v else lookupField fs key

/-- JavaScript property access `value.key` on a parsed JSON value: access on
`null` throws `TypeError`; on an object it yields the property or
`undefined` (`none`); on any other value it yields `undefined`. -/
def getField : Json → String → Except PageErr (Option Json)
  | .null, _ => .error .typeError
  | .obj fs, key => .ok (lookupField fs key)
  | _, _ => .ok none

/-- JavaScript indexing `target[idx]`: indexing `undefined` or `null`
throws; indexing an array with a number yields the element (or `undefined`
out of range); any other combination yields `undefined`. -/
def indexJson : Option Json → Option Json → Except PageErr (Option Json)
  | none, _ => .error .typeError
  | some .null, _ => .error .typeError
  | some (.arr xs), some (.num i) => .ok (if 0 ≤ i then xs[i.toNat]? else none)
  | some _, _ => .ok none

/-- Evaluation of one result card of `QuizResultsPage` (lines 53-77 of the
results page): the property accesses and indexings the JSX performs, in
order; `.error` marks a thrown `TypeError`. -/
def renderQuestionCard (q : Json) : Except PageErr Unit := do
  let _question ← getField q "question"
  let _isCorrect ← getField q "isCorrect"
  let userAnswer ← getField q "userAnswer"
  let options ← getField q "options"
  let _ ← match userAnswer with
          | none => Except.ok none
          | some Json.null => Except.ok none
          | some ua => indexJson options (some ua)
  let correctIdx ← getField q "correctAnswerIndex"
  let _ ← indexJson options correctIdx
  pure ()

/-- Rendering of the card list (`parsedQuiz.map (question, index) => ...`). -/
def renderAll : List Json → Except PageErr Unit
  | [] => .ok ()
  | q :: qs => do
      let _ ← renderQuestionCard q
      renderAll qs

/-- `parseQuiz` of the results page (lines 31-38):
`quizData ? JSON.parse(quizData) : []`, with the `catch` substituting `[]`
when `JSON.parse` throws; a missing or empty (falsy) parameter yields `[]`
directly. -/
def parseQuiz (quizData : Option String) : Json :=
  match quizData with
  | none => .arr []
  | some s => if s = "" then .arr [] else (jsonParse s).getD (.arr [])

/-- JavaScript `parseInt`: skip leading whitespace, optional sign, then the
longest digit prefix; `none` models `NaN`. -/
def jsParseInt (s : String) : Option Int :=
  match skipWs s.data with
  | [] => none
  | c :: cs =>
    if c = '-' then
      match cs with
      | [] => none
      | d :: _ => if d.isDigit then some (-((parseNatA cs 0).1 : Int)) else none
    else if c = '+' then
      match cs with
      | [] => none
      | d :: _ => if d.isDigit then some (((parseNatA cs 0).1 : Int)) else none
    else if c.isDigit then some (((parseNatA (c :: cs) 0).1 : Int))
    else none

/-- The displayed score: `score ? parseInt(score) : 0` — a missing or empty
(falsy) parameter yields 0, otherwise `parseInt` (possibly NaN = `none`). -/
def pageScore (score : Option String) : Option Int :=
  match score with
  | none => some 0
  | some s => if s = "" then some 0 else jsParseInt s

/-- The observable result of rendering `QuizResultsPage` with the given
`quiz` and `score` query parameters: the parsed question list and displayed
score, or the `TypeError` the render throws (`.length` on `null` or `.map`
on a non-array value also throw). -/
def resolvePage (quizParam scoreParam : Option String) :
    Except PageErr (List Json × Option Int) :=
  match parseQuiz quizParam with
  | .arr items =>
      match renderAll items with
      | .ok _ => .ok (items, pageScore scoreParam)
      | .error e => .error e
  | _ => .error .typeError

/-- Decoding of one element of the parsed quiz array back into the
`Question` record the results page is typed against (the page's implicit
`as Question[]` cast; the spec's `Resolve` result). -/
def optionsOfJson : List Json → Option (List String)
  | [] => some []
  | .str s :: rest => (optionsOfJson rest).map (fun l => s :: l)
  | _ => none

/-- Decode the `userAnswer` field (`null` or a number). -/
def userAnswerOfJson : Json → Option (Option Int)
  | .null => some none
  | .num u => some (some u)
  | _ => none

/-- Decode the `isCorrect` field (`null` or a boolean). -/
def isCorrectOfJson : Json → Option (Option Bool)
  | .null => some none
  | .bool b => some (some b)
  | _ => none

/-- Decode one question object of the handoff payload. -/
def questionOfJson (j : Json) : Option Session.Question :=
  match j with
  | .obj fs =>
    match lookupField fs "question", lookupField fs "options",
        lookupField fs "correctAnswerIndex", lookupField fs "userAnswer",
        lookupField fs "isCorrect" with
    | some (.str question), some (.arr opts), some (.num idx), some ua, some ic =>
      match optionsOfJson opts, userAnswerOfJson ua, isCorrectOfJson ic with
      | some options, some userAnswer, some isCorrect =>
          some { question := question, options := options, correctAnswerIndex := idx,
                 userAnswer := userAnswer, isCorrect := isCorrect }
      | _, _, _ => none
    | _, _, _, _, _ => none
  | _ => none

/-- Decode a list of question objects, failing if any element fails. -/
def quizElemsOfJson : List Json → Option (List Session.Question)
  | [] => some []
  | j :: rest =>
    match questionOfJson j, quizElemsOfJson rest with
    | some q, some qs => some (q :: qs)
    | _, _ => none

/-- Decode the whole handoff quiz array. -/
def quizOfJson : Json → Option (List Session.Question)
  | .arr items => quizElemsOfJson items
  | _ => none

end ResultsPage

namespace ResultsPage

theorem optionsOfJson_round (l : List String) : optionsOfJson (l.map Json.str) = some l := by
  induction l with
  | nil => rfl
  | cons s rest ih => simp [optionsOfJson, ih]

theorem questionOfJson_round (q : Session.Question) :
    questionOfJson (Session.questionToJson q) = some q := by
  obtain ⟨question, options, correctAnswerIndex, userAnswer, isCorrect⟩ := q
  unfold Session.questionToJson questionOfJson
  cases userAnswer <;> cases isCorrect <;>
    simp [lookupField, optionsOfJson_round, userAnswerOfJson, isCorrectOfJson]

theorem quizElemsOfJson_round (quiz : List Session.Question) :
    quizElemsOfJson (quiz.map Session.questionToJson) = some quiz := by
  induction quiz with
  | nil => rfl
  | cons q rest ih => simp [quizElemsOfJson, questionOfJson_round, ih]

theorem quizOfJson_round (quiz : List Session.Question) :
    quizOfJson (Session.quizToJson quiz) = some quiz := by
  unfold Session.quizToJson quizOfJson
  exact quizElemsOfJson_round quiz

theorem digitToChar_ne_plus : ∀ d, d < 10 → digitToChar d ≠ '+' := by decide

theorem jsParseInt_natToDec (n : Nat) : jsParseInt ⟨natToDec n⟩ = some (n : Int) := by
  unfold jsParseInt
  rw [show (String.mk (natToDec n)).data = natToDec n from rfl]
  obtain ⟨d, tail, hdec, hd⟩ := natToDec_head n
  rw [hdec]
  rw [skipWs_not_ws (digitToChar_head_facts d hd).1]
  dsimp only
  rw [if_neg ((digitToChar_head_facts d hd).2.2.1), if_neg (digitToChar_ne_plus d hd),
    if_pos (digitToChar_isDigit d hd)]
  rw [show digitToChar d :: tail = natToDec n ++ [] from by rw [hdec, List.append_nil]]
  rw [parseNatA_natToDec n [] rfl]

theorem natToDec_ne_empty (n : Nat) : String.mk (natToDec n) ≠ "" := by
  intro h
  obtain ⟨d, tail, hdec, -⟩ := natToDec_head n
  rw [hdec] at h
  have h' : digitToChar d :: tail = ("" : String).data := congrArg String.data h
  simp at h'

theorem pageScore_natToDec (n : Nat) : pageScore (some ⟨natToDec n⟩) = some (n : Int) := by
  unfold pageScore
  dsimp only
  rw [if_neg (natToDec_ne_empty n)]
  exact jsParseInt_natToDec n

theorem indexJson_arr_ok (xs : List Json) (x : Option Json) :
    ∃ v, indexJson (some (.arr xs)) x = .ok v := by
  cases x with
  | none => exact ⟨none, rfl⟩
  | some j =>
    cases j with
    | num i => exact ⟨_, rfl⟩
    | null => exact ⟨none, rfl⟩
    | bool b => exact ⟨none, rfl⟩
    | str s => exact ⟨none, rfl⟩
    | arr ys => exact ⟨none, rfl⟩
    | obj fs => exact ⟨none, rfl⟩

theorem renderQuestionCard_ok (q : Session.Question) :
    renderQuestionCard (Session.questionToJson q) = .ok () := by
  obtain ⟨question, options, correctAnswerIndex, userAnswer, isCorrect⟩ := q
  cases userAnswer <;> cases isCorrect <;>
    simp [renderQuestionCard, Session.questionToJson, getField, lookupField, indexJson,
      bind, Except.bind, pure, Except.pure]

theorem renderAll_ok (quiz : List Session.Question) :
    renderAll (quiz.map Session.questionToJson) = .ok () := by
  induction quiz with
  | nil => rfl
  | cons q rest ih =>
    simp [renderAll, renderQuestionCard_ok, ih, bind, Except.bind]

theorem jsonStringify_arr_ne_empty (es : List Json) : jsonStringify (Json.arr es) ≠ "" := by
  intro h
  have h' := congrArg String.data h
  rw [show (jsonStringify (Json.arr es)).data = serialize (Json.arr es) from rfl,
    serialize_arr] at h'
  simp at h'

theorem publish_quiz_ne_empty (quiz : List Session.Question) :
    jsonStringify (Session.quizToJson quiz) ≠ "" :=
  jsonStringify_arr_ne_empty (quiz.map Session.questionToJson)

/-- Claim C7: the handoff round-trips losslessly.  `handleFinishQuiz`
publishes the three parameter strings (serialized quiz, score, language);
on the results page the quiz parameter parses back to exactly the serialized
JSON value, decoding it reproduces the full answered-question list, the
score parameter parses back to the score, the language is carried verbatim,
and the page renders the payload without error — all without any sender
state. -/
theorem handoff_round_trip (quiz : List Session.Question) (score : Nat) (language : String) :
    (Session.publishParams quiz score language).2.2 = language ∧
    jsonParse (Session.publishParams quiz score language).1
      = some (Session.quizToJson quiz) ∧
    quizOfJson (Session.quizToJson quiz) = some quiz ∧
    pageScore (some (Session.publishParams quiz score language).2.1) = some (score : Int) ∧
    resolvePage (some (Session.publishParams quiz score language).1)
        (some (Session.publishParams quiz score language).2.1)
      = .ok (quiz.map Session.questionToJson, some (score : Int)) := by
  refine ⟨rfl, jsonParse_stringify _, quizOfJson_round quiz, pageScore_natToDec score, ?_⟩
  show resolvePage (some (jsonStringify (Session.quizToJson quiz)))
      (some ⟨natToDec score⟩) = _
  unfold resolvePage
  rw [show parseQuiz (some (jsonStringify (Session.quizToJson quiz)))
      = Session.quizToJson quiz from by
    unfold parseQuiz
    dsimp only
    rw [if_neg (publish_quiz_ne_empty quiz), jsonParse_stringify]
    rfl]
  rw [show Session.quizToJson quiz = Json.arr (quiz.map Session.questionToJson) from rfl]
  dsimp only
  rw [renderAll_ok quiz, pageScore_natToDec score]

end ResultsPage

namespace ResultsPage

/-- Claim C8 counterexample: the handoff boundary does not always degrade to
an empty list and zero score.  The hand-edited quiz parameter `"[5]"` is
valid JSON but not an array of question objects: the page's render throws a
`TypeError` (indexing `options` of a number) instead of yielding an empty
question list; the quiz parameter `"1.5"` is likewise valid JSON (a number),
so the `catch` does not fire and `.map` on it throws; and the displayed
score is taken from the separate score parameter (3, not 0). -/
theorem resolve_malformed_counterexample :
    resolvePage (some "[5]") (some "3") = .error .typeError ∧
    resolvePage (some "1.5") (some "3") = .error .typeError ∧
    pageScore (some "3") = some 3 :=
  ⟨rfl, rfl, rfl⟩

/-- Claim C8 amended: if the quiz parameter is missing, empty, or not
parseable as JSON, the page yields an empty question list and does not
crash; the score is computed independently from the score parameter, 0 when
that parameter is missing or empty.  A quiz parameter that parses to JSON
that is not an array of question objects can still crash the render, and a
present score parameter is displayed as parsed, not forced to 0. -/
theorem resolve_malformed_quiz_degrades (qp sp : Option String)
    (h : qp = none ∨ qp = some "" ∨ (∃ s, qp = some s ∧ jsonParse s = none)) :
    resolvePage qp sp = .ok ([], pageScore sp) ∧
    ((sp = none ∨ sp = some "") → pageScore sp = some 0) := by
  have hparse : parseQuiz qp = .arr [] := by
    rcases h with rfl | rfl | ⟨s, rfl, hs⟩
    · rfl
    · rfl
    · unfold parseQuiz
      dsimp only
      by_cases hempty : s = ""
      · rw [if_pos hempty]
      · rw [if_neg hempty, hs]
        rfl
  constructor
  · unfold resolvePage
    rw [hparse]
    rfl
  · rintro (rfl | rfl) <;> rfl

/-- Witness for the amended C8 theorem: quiz parameters `"\x7b"` (a lone
open brace) and `"01"` (a leading-zero numeral, a `SyntaxError` for
`JSON.parse`) are unparseable, so with a missing score parameter the page
yields the empty list and score 0. -/
theorem resolve_malformed_quiz_degrades_witness :
    resolvePage (some "\x7b") none = .ok ([], some 0) ∧
    resolvePage (some "01") none = .ok ([], some 0) ∧
    pageScore none = some 0 := by
  have h := resolve_malformed_quiz_degrades (some "\x7b") none
    (Or.inr (Or.inr ⟨"\x7b", rfl, rfl⟩))
  have h2 := resolve_malformed_quiz_degrades (some "01") none
    (Or.inr (Or.inr ⟨"01", rfl, rfl⟩))
  exact ⟨by rw [h.1]; rfl, by rw [h2.1]; rfl, h.2 (Or.inl rfl)⟩

end ResultsPage
